import Mathlib

/-!
Verification development for the `deployment-replicator` tool
(pattern scanner / template engine / applicator pipeline).

Shallow embedding conventions:
  * Paths are repo-relative lists of segments (`List String`).  A filesystem
    is an ordered list of files; directories are implicit (a directory
    exists iff some file lies strictly below it).  Traversal order
    (`rglob`, `iterdir`, `glob`) is modelled as the order of the file list.
  * A file carries its raw text together with the results of the two
    external parsers applied to that text: `parsed` is the result of
    `yaml.safe_load` (`none` models a parse exception) and `jinja` is the
    result of `jinja2.Template` construction (`.syntaxError` models a
    `TemplateSyntaxError`).  The parsers themselves are external libraries
    and are not re-implemented; their outputs are part of the modelled
    world.  When the applicator writes a rendered string, the parse
    results of the new content are supplied by an `Oracle`.
  * Python exceptions escaping a function are modelled with `Except`,
    carrying the filesystem state at the moment of the raise (writes
    performed before the raise are kept, like in Python).
-/

/-! Kernel-friendly character-list string helpers.  The corresponding
`String` library functions are compiled by well-founded recursion and do
not reduce definitionally; these do, and agree with Python's semantics
for the operations the source uses. -/

def strStartsWith (s pre : String) : Bool := pre.data.isPrefixOf s.data

def strEndsWith (s suf : String) : Bool := suf.data.isSuffixOf s.data

def strDropRight (s : String) (n : Nat) : String :=
  ⟨s.data.take (s.data.length - n)⟩

def strTakeRightWhile (s : String) (p : Char → Bool) : String :=
  ⟨(s.data.reverse.takeWhile p).reverse⟩

def strDropRightWhile (s : String) (p : Char → Bool) : String :=
  ⟨(s.data.reverse.dropWhile p).reverse⟩

def subAt (pat : List Char) : List Char → Bool
  | [] => pat.isEmpty
  | c :: cs => pat.isPrefixOf (c :: cs) || subAt pat cs

/-- Python substring containment (`needle in s`). -/
def containsSub (s pat : String) : Bool := subAt pat.data s.data

def replaceAux (pat repl : List Char) : Nat → List Char → List Char
  | _, [] => []
  | 0, l => l
  | n + 1, c :: cs =>
    if pat.isPrefixOf (c :: cs) && !pat.isEmpty then
      repl ++ replaceAux pat repl n ((c :: cs).drop pat.length)
    else c :: replaceAux pat repl n cs

/-- Python `str.replace` (left-to-right, non-overlapping).  The empty
pattern, which Python treats specially, leaves the string unchanged here;
the source only ever replaces a fixed non-empty pattern. -/
def strReplace (s pat repl : String) : String :=
  ⟨replaceAux pat.data repl.data s.data.length s.data⟩

/-- YAML values as loaded by `yaml.safe_load`. -/
inductive Yaml where
  | nil : Yaml
  | bool : Bool → Yaml
  | str : String → Yaml
  | num : Int → Yaml
  | list : List Yaml → Yaml
  | map : List (String × Yaml) → Yaml

namespace Yaml

mutual

/-- Decidable equality on YAML values (the automatic derivation does not
handle the nested lists).  Only the second-pass duplicate suppression of
the GitOps detector consults it. -/
def decEq : (a b : Yaml) → Decidable (a = b)
  | .nil, .nil => isTrue rfl
  | .bool x, .bool y =>
    if h : x = y then isTrue (by rw [h]) else isFalse (fun e => h (by injection e))
  | .str x, .str y =>
    if h : x = y then isTrue (by rw [h]) else isFalse (fun e => h (by injection e))
  | .num x, .num y =>
    if h : x = y then isTrue (by rw [h]) else isFalse (fun e => h (by injection e))
  | .list l, .list l' =>
    match decEqList l l' with
    | isTrue h => isTrue (by rw [h])
    | isFalse h => isFalse (fun e => h (by injection e))
  | .map m, .map m' =>
    match decEqMap m m' with
    | isTrue h => isTrue (by rw [h])
    | isFalse h => isFalse (fun e => h (by injection e))
  | .nil, .bool _ | .nil, .str _ | .nil, .num _ | .nil, .list _ | .nil, .map _
  | .bool _, .nil | .bool _, .str _ | .bool _, .num _ | .bool _, .list _ | .bool _, .map _
  | .str _, .nil | .str _, .bool _ | .str _, .num _ | .str _, .list _ | .str _, .map _
  | .num _, .nil | .num _, .bool _ | .num _, .str _ | .num _, .list _ | .num _, .map _
  | .list _, .nil | .list _, .bool _ | .list _, .str _ | .list _, .num _ | .list _, .map _
  | .map _, .nil | .map _, .bool _ | .map _, .str _ | .map _, .num _ | .map _, .list _ =>
    isFalse (fun h => Yaml.noConfusion h)

def decEqList : (l l' : List Yaml) → Decidable (l = l')
  | [], [] => isTrue rfl
  | [], _ :: _ => isFalse (fun h => List.noConfusion h)
  | _ :: _, [] => isFalse (fun h => List.noConfusion h)
  | x :: xs, y :: ys =>
    match decEq x y, decEqList xs ys with
    | isTrue h1, isTrue h2 => isTrue (by rw [h1, h2])
    | isFalse h1, _ => isFalse (fun e => h1 (by injection e))
    | _, isFalse h2 => isFalse (fun e => h2 (by injection e))

def decEqMap : (m m' : List (String × Yaml)) → Decidable (m = m')
  | [], [] => isTrue rfl
  | [], _ :: _ => isFalse (fun h => List.noConfusion h)
  | _ :: _, [] => isFalse (fun h => List.noConfusion h)
  | (k, v) :: xs, (k', v') :: ys =>
    if hk : k = k' then
      match decEq v v', decEqMap xs ys with
      | isTrue h1, isTrue h2 => isTrue (by rw [hk, h1, h2])
      | isFalse h1, _ =>
        isFalse (fun e => by
          injection e with e1 e2
          exact h1 (congrArg Prod.snd e1))
      | _, isFalse h2 => isFalse (fun e => h2 (by injection e))
    else
      isFalse (fun e => by
        injection e with e1 e2
        exact hk (congrArg Prod.fst e1))

end

instance instDecEq : DecidableEq Yaml := Yaml.decEq

/-- Association-list lookup, first binding wins (Python dict access on the
dictionary produced by the YAML loader). -/
def lookup (m : List (String × Yaml)) (k : String) : Option Yaml :=
  match m with
  | [] => none
  | (k', v) :: rest => if k' = k then some v else lookup rest k

/-- Python truthiness of a loaded YAML value, used by the pervasive
`yaml.safe_load(f) or ` empty-dict idiom in the source. -/
def falsy : Yaml → Bool
  | .nil => true
  | .bool b => !b
  | .str s => s = ""
  | .num n => n = 0
  | .list l => l.isEmpty
  | .map m => m.isEmpty

/-- The `yaml.safe_load(f) or ` empty-dict idiom: a falsy load result is
replaced by an empty dictionary. -/
def orEmpty (y : Yaml) : Yaml :=
  if y.falsy then .map [] else y

/-- Python `needle in container` for a loaded YAML value: key test on
dicts, substring test on strings, membership on lists; `none` models the
`TypeError` raised on non-container values. -/
def pyIn (needle : String) : Yaml → Option Bool
  | .map m => some ((lookup m needle).isSome)
  | .str s => some (containsSub s needle)
  | .list l =>
    some (l.any (fun x => match x with | .str s => s = needle | _ => false))
  | .nil => none
  | .bool _ => none
  | .num _ => none

end Yaml

/-- Repository-relative path: a list of name segments. -/
abbrev FPath := List String

/-- `pathIsUnder d p` holds when `p` starts with the segments of `d`. -/
def pathIsUnder : FPath → FPath → Bool
  | [], _ => true
  | _ :: _, [] => false
  | a :: as, b :: bs => a = b && pathIsUnder as bs

/-- A default argument of the Jinja `default` filter as it appears in the
engine's template bodies: either a literal (stored in the string form that
Jinja renders it to, e.g. True renders as "True", 1 as "1") or a reference
to another variable. -/
inductive JExpr where
  | lit : String → JExpr
  | varE : String → JExpr
deriving DecidableEq

/-- A flat piece of a Jinja template: literal text, or a print statement
for a variable, optionally guarded by a `default` filter. -/
inductive JinjaAtom where
  | text : String → JinjaAtom
  | subst : String → Option JExpr → JinjaAtom
deriving DecidableEq

/-- A Jinja template node.  The only block construct appearing in the
source's template bodies is a single conditional testing
`source_type == "helm"`, whose body is flat. -/
inductive JinjaNode where
  | atom : JinjaAtom → JinjaNode
  | condHelm : List JinjaAtom → JinjaNode
deriving DecidableEq

/-- Jinja parse outcome of a text body: `jinja2.Template(body)` either
yields a compiled template or raises `TemplateSyntaxError` at
construction time. -/
inductive JinjaParse where
  | ok : List JinjaNode → JinjaParse
  | syntaxError : JinjaParse
deriving DecidableEq

/-- Variable sets passed to Jinja rendering: all values that the source
ever passes are strings (see `extractVariablesForRepo`). -/
abbrev Vars := List (String × String)

def lookupVar (vars : Vars) (n : String) : Option String :=
  match vars with
  | [] => none
  | (k, v) :: rest => if k = n then some v else lookupVar rest n

/-- Evaluate a `default` filter argument.  An undefined variable used as
the default renders as the empty string (Jinja default `Undefined`). -/
def evalJExpr (vars : Vars) : JExpr → String
  | .lit s => s
  | .varE n => (lookupVar vars n).getD ""

/-- Render one flat atom.  A print statement for an unbound variable with
no `default` filter renders as the empty string: this is the documented
behaviour of Jinja's default `Undefined` class, which the source uses
(plain `Template(content).render(**variables)`, no `StrictUndefined`). -/
def renderAtom (vars : Vars) : JinjaAtom → String
  | .text s => s
  | .subst n d =>
    match lookupVar vars n with
    | some v => v
    | none =>
      match d with
      | some e => evalJExpr vars e
      | none => ""

def renderAtoms (vars : Vars) (l : List JinjaAtom) : String :=
  (l.map (renderAtom vars)).foldl (· ++ ·) ""

def renderNode (vars : Vars) : JinjaNode → String
  | .atom a => renderAtom vars a
  | .condHelm body =>
    if lookupVar vars "source_type" = some "helm" then renderAtoms vars body else ""

/-- Render a compiled Jinja template against a variable set
(`Template(content).render(**variables)`). -/
def renderNodes (vars : Vars) (t : List JinjaNode) : String :=
  (t.map (renderNode vars)).foldl (· ++ ·) ""

/-- `TemplateEngine.render_template`: compile the body, then render; a
body that fails to compile raises `TemplateSyntaxError` to the caller. -/
def renderTemplate (t : JinjaParse) (vars : Vars) : Except String String :=
  match t with
  | .syntaxError => .error "TemplateSyntaxError"
  | .ok nodes => .ok (renderNodes vars nodes)

/-- A file: raw text plus the outcomes of the two external parsers on that
text (`yaml.safe_load`; `jinja2.Template`).  `parsed = none` models a YAML
parse exception. -/
structure MFile where
  raw : String
  parsed : Option Yaml
  jinja : JinjaParse
deriving DecidableEq

/-- An ordered filesystem: regular files only, directories implicit.
The source never creates an empty directory that later matters, and never
hits a file/directory name collision in the modelled claims. -/
structure FS where
  files : List (FPath × MFile)
deriving DecidableEq

namespace FS

def lookup (fs : FS) (p : FPath) : Option MFile :=
  match fs.files.find? (fun q => q.1 = p) with
  | some q => some q.2
  | none => none

/-- A directory exists iff some file lies strictly below it. -/
def dirExists (fs : FS) (d : FPath) : Bool :=
  fs.files.any (fun q => pathIsUnder d q.1 && d.length < q.1.length)

def writeList (l : List (FPath × MFile)) (p : FPath) (f : MFile) :
    List (FPath × MFile) :=
  match l with
  | [] => [(p, f)]
  | (q, g) :: rest =>
    if q = p then (p, f) :: rest else (q, g) :: writeList rest p f

/-- Write (create or truncate-and-overwrite) a file. -/
def write (fs : FS) (p : FPath) (f : MFile) : FS :=
  ⟨writeList fs.files p f⟩

/-- Files strictly below a directory, in filesystem order (`rglob` over a
directory). -/
def filesUnder (fs : FS) (d : FPath) : List (FPath × MFile) :=
  fs.files.filter (fun q => pathIsUnder d q.1 && d.length < q.1.length)

/-- Immediate children yaml files of a directory, in filesystem order
(the `glob` of a star-dot-yaml pattern). -/
def dirYamlFiles (fs : FS) (d : FPath) : List FPath :=
  fs.files.filterMap (fun q =>
    if q.1.dropLast = d && strEndsWith (q.1.getLast?.getD "") ".yaml"
    then some q.1 else none)

def dedupAux (seen : List String) : List String → List String
  | [] => []
  | x :: xs => if x ∈ seen then dedupAux seen xs else x :: dedupAux (x :: seen) xs

/-- Names of the immediate children (files or directories) of a directory,
in order of first appearance (`iterdir`). -/
def childrenNames (fs : FS) (d : FPath) : List String :=
  dedupAux [] ((fs.filesUnder d).filterMap (fun q => (q.1.drop d.length).head?))

end FS

/-- Python `Path.suffix`: the final dot-extension, empty when there is no
dot or the only dot is the leading character of the name. -/
def pySuffix (s : String) : String :=
  let t := strTakeRightWhile s (· ≠ '.')
  if t.length + 1 < s.length then "." ++ t else ""

/-- Python `Path.stem`: the file name with its final suffix removed. -/
def pyStem (s : String) : String :=
  let r := strDropRightWhile s (· ≠ '.')
  if r.length ≤ 1 then s else strDropRight r 1

/-- Does a file name match the recursive glob pattern
star `application` star `.yaml` used by the GitOps detector? -/
def matchesApplicationGlob (s : String) : Bool :=
  strEndsWith s ".yaml" && containsSub (strDropRight s 5) "application"

def pathStr (p : FPath) : String := String.intercalate "/" p

/-- A detected pattern record.  The Python source builds a plain dict; the
optional fields model keys present only for some kinds (`version` and
`template_count` for charts, `source_type` for GitOps applications), so
record equality coincides with Python dict equality. -/
structure Pattern where
  type : String
  name : Yaml
  path : FPath
  configs : List FPath
  version : Option Yaml := none
  templateCount : Option Nat := none
  sourceType : Option String := none
deriving DecidableEq

/-- A repository as seen by the tool: its directory base name, the git
remote URL the collaborator supplies (none when no remote is configured),
and its file tree. -/
structure Repo where
  name : String
  remoteUrl : Option String
  fs : FS


/-! ## Pattern detectors (`patterns/helm.py`, `patterns/argocd.py`) -/

/-- `HelmPatternDetector.detect`'s per-file skip test: any path segment of
the matched file (file name included) starting with a dot, or equal to a
known vendor directory name. -/
def hiddenOrVendor (p : FPath) : Bool :=
  p.any (fun part => strStartsWith part ".") ||
  p.any (fun part => part = "node_modules") ||
  p.any (fun part => part = "vendor")

/-- Directories containing a `Chart.yaml`, in `rglob` order, after the
hidden/vendor skip. -/
def chartDirs (fs : FS) : List FPath :=
  fs.files.filterMap (fun q =>
    if q.1.getLast? = some "Chart.yaml" && !hiddenOrVendor q.1
    then some q.1.dropLast else none)

/-- Fallback name of a directory: its base name, or the repository's own
base name for the repository root. -/
def dirName (r : Repo) (d : FPath) : String :=
  d.getLast?.getD r.name

/-- `HelmPatternDetector._analyze_helm_chart`.  An error value models the
caught exception together with its printed diagnostic line: YAML parse
failure, or attribute access on a non-dict load result. -/
def analyzeHelmChart (r : Repo) (d : FPath) : Except String Pattern :=
  let diag := "Error analyzing Helm chart at " ++ pathStr d
  match r.fs.lookup (d ++ ["Chart.yaml"]) with
  | none => .error diag
  | some f =>
    match f.parsed with
    | none => .error diag
    | some y =>
      match y.orEmpty with
      | .map m =>
        let values := d ++ ["values.yaml"]
        .ok
          { type := "helm"
            name := (Yaml.lookup m "name").getD (.str (dirName r d))
            path := d
            version := some ((Yaml.lookup m "version").getD (.str "0.1.0"))
            configs := if (r.fs.lookup values).isSome then [values] else []
            templateCount :=
              if r.fs.dirExists (d ++ ["templates"]) then
                some ((fs_templates_yaml r.fs d).length)
              else none }
      | _ => .error diag
where
  /-- The star-dot-yaml glob inside the chart's `templates` directory. -/
  fs_templates_yaml (fs : FS) (d : FPath) : List FPath :=
    fs.files.filterMap (fun q =>
      if q.1.dropLast = d ++ ["templates"] &&
         strEndsWith (q.1.getLast?.getD "") ".yaml"
      then some q.1 else none)

/-- `HelmPatternDetector.detect`: analyze every non-hidden, non-vendor
chart directory, keeping the successful analyses. -/
def helmDetect (r : Repo) : List Pattern :=
  (chartDirs r.fs).filterMap (fun d => (analyzeHelmChart r d).toOption)

/-- Diagnostic lines printed by the Helm detector, in order. -/
def helmDetectDiags (r : Repo) : List String :=
  (chartDirs r.fs).filterMap (fun d =>
    match analyzeHelmChart r d with
    | .error e => some e
    | .ok _ => none)

/-- `ArgoCDPatternDetector._is_argocd_app`: the classifier.  Total — every
exception (parse failure, attribute access on a non-dict document,
`startswith` on a non-string field) is caught and yields `false`. -/
def isArgocdApp (parsed : Option Yaml) : Bool :=
  match parsed with
  | none => false
  | some y =>
    match y.orEmpty with
    | .map m =>
      (match Yaml.lookup m "apiVersion" with
       | some (.str s) => strStartsWith s "argoproj.io/"
       | some _ => false
       | none => false) &&
      (Yaml.lookup m "kind" = some (.str "Application"))
    | _ => false

/-- `ArgoCDPatternDetector._analyze_argocd_app`.  An error value models
the caught exception plus its diagnostic line. -/
def analyzeArgocdApp (r : Repo) (p : FPath) : Except String Pattern :=
  let diag := "Error analyzing ArgoCD app at " ++ pathStr p
  match r.fs.lookup p with
  | none => .error diag
  | some f =>
    match f.parsed with
    | none => .error diag
    | some y =>
      match y.orEmpty with
      | .map m =>
        match (Yaml.lookup m "metadata").getD (.map []) with
        | .map mm =>
          match (Yaml.lookup m "spec").getD (.map []) with
          | .map sm =>
            match Yaml.pyIn "helm" ((Yaml.lookup sm "source").getD (.map [])) with
            | some b =>
              .ok
                { type := "argocd"
                  name := (Yaml.lookup mm "name").getD
                            (.str (pyStem (p.getLast?.getD "")))
                  path := p.dropLast
                  configs := [p]
                  sourceType := some (if b then "helm" else "kustomize") }
            | none => .error diag
          | _ => .error diag
        | _ => .error diag
      | _ => .error diag

/-- The fixed ordered list of conventional GitOps directories searched by
the first pass of `ArgoCDPatternDetector.detect`. -/
def argocdDirs : List FPath :=
  [["argocd"], ["argo-cd"], ["deployments", "argocd"], ["k8s", "argocd"],
   [".argocd"]]

/-- First-pass candidate files: immediate yaml children of each existing
conventional directory. -/
def argocdPass1Files (r : Repo) : List FPath :=
  (argocdDirs.filter (fun d => r.fs.dirExists d)).flatMap
    (fun d => r.fs.dirYamlFiles d)

def parsedAt (r : Repo) (p : FPath) : Option Yaml :=
  match r.fs.lookup p with
  | some f => f.parsed
  | none => none

/-- First-pass patterns: classify then analyze each candidate. -/
def argocdPass1 (r : Repo) : List Pattern :=
  (argocdPass1Files r).filterMap (fun p =>
    if isArgocdApp (parsedAt r p) then (analyzeArgocdApp r p).toOption
    else none)

/-- Second-pass candidate files: repository-wide recursive glob for file
names containing `application` and ending in `.yaml` (no hidden/vendor
skip in this pass). -/
def argocdPass2Files (r : Repo) : List FPath :=
  r.fs.files.filterMap (fun q =>
    if matchesApplicationGlob (q.1.getLast?.getD "") then some q.1 else none)

/-- Second pass: same classifier and analysis, appending each produced
pattern unless an identical record (full dict equality) is already
present. -/
def argocdPass2 (r : Repo) (acc : List Pattern) : List FPath → List Pattern
  | [] => acc
  | p :: ps =>
    if isArgocdApp (parsedAt r p) then
      match analyzeArgocdApp r p with
      | .ok pat =>
        argocdPass2 r (if acc.contains pat then acc else acc ++ [pat]) ps
      | .error _ => argocdPass2 r acc ps
    else argocdPass2 r acc ps

/-- `ArgoCDPatternDetector.detect`. -/
def argocdDetect (r : Repo) : List Pattern :=
  argocdPass2 r (argocdPass1 r) (argocdPass2Files r)

/-- Diagnostic lines printed by the GitOps detector, in execution order
(first pass, then second pass). -/
def argocdDetectDiags (r : Repo) : List String :=
  ((argocdPass1Files r ++ argocdPass2Files r).filter
      (fun p => isArgocdApp (parsedAt r p))).filterMap (fun p =>
    match analyzeArgocdApp r p with
    | .error e => some e
    | .ok _ => none)

/-- `DeploymentScanner.scan_repository`: run the detectors in fixed order
and concatenate. -/
def scanRepository (r : Repo) : List Pattern :=
  helmDetect r ++ argocdDetect r

/-- All diagnostic lines printed to the collaborator's sink during one
scan. -/
def scanDiags (r : Repo) : List String :=
  helmDetectDiags r ++ argocdDetectDiags r

/-! ## Parameter extraction (`scanner.py`) -/

/-- The parameter record built by `DeploymentScanner._extract_helm_parameters`:
a dict with `appName`, `namespace` and a nested `image` dict. -/
structure HelmParams where
  appName : Yaml
  nspace : Yaml
  image : List (String × Yaml)
deriving DecidableEq

/-- Python `dict.__setitem__`: replace the binding in place, or append. -/
def setKey : List (String × Yaml) → String → Yaml → List (String × Yaml)
  | [], k, v => [(k, v)]
  | (k', v') :: rest, k, v =>
    if k' = k then (k, v) :: rest else (k', v') :: setKey rest k v

/-- Python `dict.update` with a dict argument: later bindings overwrite. -/
def dictUpdate (base : List (String × Yaml)) (upd : List (String × Yaml)) :
    List (String × Yaml) :=
  upd.foldl (fun b kv => setKey b kv.1 kv.2) base

/-- `DeploymentScanner._extract_helm_parameters`.  Runs with NO local
exception handling: a values-file parse failure or a type error while
merging propagates to the caller (modelled as `.error`).  The `update`
call is modelled for a dict-valued `image` key; Python would accept some
other exotic iterables, which the source data (parsed YAML) never
produces except as type errors. -/
def extractHelmParameters (r : Repo) (pat : Pattern) : Except String HelmParams :=
  let base : HelmParams :=
    { appName := pat.name
      nspace := .str "default"
      image := [("repository", .str ""), ("tag", .str "latest")] }
  match r.fs.lookup (pat.path ++ ["values.yaml"]) with
  | none => .ok base
  | some f =>
    match f.parsed with
    | none => .error "YAMLError"
    | some y =>
      let v := y.orEmpty
      match Yaml.pyIn "image" v with
      | none => .error "TypeError"
      | some hasImage =>
        let imageStep : Except String (List (String × Yaml)) :=
          if hasImage then
            match v with
            | .map m =>
              match Yaml.lookup m "image" with
              | some (.map im) => .ok (dictUpdate base.image im)
              | some _ => .error "TypeError"
              | none => .ok base.image
            | _ => .error "TypeError"
          else .ok base.image
        match imageStep with
        | .error e => .error e
        | .ok img =>
          match Yaml.pyIn "namespace" v with
          | none => .error "TypeError"
          | some hasNs =>
            if hasNs then
              match v with
              | .map m =>
                match Yaml.lookup m "namespace" with
                | some ns => .ok { base with nspace := ns, image := img }
                | none => .ok { base with image := img }
              | _ => .error "TypeError"
            else .ok { base with image := img }

/-! ## Apply-time repository variables (`applicator.py`) -/

/-- `PatternApplicator._extract_variables_for_repo`: variables derived
purely from the target repository identity; the git remote URL or the
constructed fallback. -/
def extractVariablesForRepo (r : Repo) : Vars :=
  let repoUrl := r.remoteUrl.getD ("https://github.com/org/" ++ r.name)
  [("app_name", r.name),
   ("repo_url", repoUrl),
   ("repo_name", r.name),
   ("chart_version", "0.1.0"),
   ("app_version", "1.0.0"),
   ("image_repository", "myorg/" ++ r.name),
   ("image_tag", "latest"),
   ("source_path", "deployments/helm/" ++ r.name),
   ("dest_namespace", r.name),
   ("source_type", "helm")]

/-! ## Template engine (`template_engine.py`)

The three fixed template bodies are transcribed below as their Jinja parse
results.  Literal text between print statements is kept verbatim; each
`default`-filtered print statement records the string form Jinja renders
its default to (Python booleans render as True/False, numbers as their
digits). -/

/-- Parse result of the engine's `Chart.yaml` body. -/
def chartTemplateAST : List JinjaNode :=
  [.atom (.text "apiVersion: v2\nname: "),
   .atom (.subst "app_name" none),
   .atom (.text "\ndescription: A Helm chart for "),
   .atom (.subst "app_name" none),
   .atom (.text "\ntype: application\nversion: "),
   .atom (.subst "chart_version" (some (.lit "0.1.0"))),
   .atom (.text "\nappVersion: "),
   .atom (.subst "app_version" (some (.lit "1.0.0"))),
   .atom (.text "\n")]

/-- Parse result of the engine's `values.yaml` body. -/
def valuesTemplateAST : List JinjaNode :=
  [.atom (.text "# Default values for "),
   .atom (.subst "app_name" none),
   .atom (.text "\nreplicaCount: "),
   .atom (.subst "replica_count" (some (.lit "1"))),
   .atom (.text "\n\nimage:\n  repository: "),
   .atom (.subst "image_repository" (some (.lit "nginx"))),
   .atom (.text "\n  pullPolicy: "),
   .atom (.subst "pull_policy" (some (.lit "IfNotPresent"))),
   .atom (.text "\n  tag: "),
   .atom (.subst "image_tag" (some (.lit "latest"))),
   .atom (.text "\n\nservice:\n  type: "),
   .atom (.subst "service_type" (some (.lit "ClusterIP"))),
   .atom (.text "\n  port: "),
   .atom (.subst "service_port" (some (.lit "80"))),
   .atom (.text "\n\ningress:\n  enabled: "),
   .atom (.subst "ingress_enabled" (some (.lit "False"))),
   .atom (.text "\n  className: "),
   .atom (.subst "ingress_class" (some (.lit "nginx"))),
   .atom (.text "\n  hosts:\n    - host: "),
   .atom (.subst "app_name" none),
   .atom (.text ".local\n      paths:\n        - path: /\n          pathType: Prefix\n\nresources:\n  limits:\n    cpu: "),
   .atom (.subst "cpu_limit" (some (.lit "100m"))),
   .atom (.text "\n    memory: "),
   .atom (.subst "memory_limit" (some (.lit "128Mi"))),
   .atom (.text "\n  requests:\n    cpu: "),
   .atom (.subst "cpu_request" (some (.lit "100m"))),
   .atom (.text "\n    memory: "),
   .atom (.subst "memory_request" (some (.lit "128Mi"))),
   .atom (.text "\n")]

/-- Parse result of the engine's `templates/deployment.yaml` body.  That
body embeds Helm-template syntax: its print statements contain NESTED
print-statement braces (around `app_name` inside a quoted Helm `include`
call) and expressions that begin with a dot (`.Values.replicaCount`,
`.Chart.Name`, ...).  Both are syntax errors for Jinja, so
`jinja2.Template` raises `TemplateSyntaxError` on this body. -/
def deploymentTemplateAST : JinjaParse := .syntaxError

/-- Parse result of the engine's ArgoCD `application.yaml` body. -/
def argocdTemplateAST : List JinjaNode :=
  [.atom (.text "apiVersion: argoproj.io/v1alpha1\nkind: Application\nmetadata:\n  name: "),
   .atom (.subst "app_name" none),
   .atom (.text "\n  namespace: "),
   .atom (.subst "argocd_namespace" (some (.lit "argocd"))),
   .atom (.text "\n  finalizers:\n    - resources-finalizer.argocd.argoproj.io\nspec:\n  project: "),
   .atom (.subst "project" (some (.lit "default"))),
   .atom (.text "\n  source:\n    repoURL: "),
   .atom (.subst "repo_url" none),
   .atom (.text "\n    targetRevision: "),
   .atom (.subst "target_revision" (some (.lit "HEAD"))),
   .atom (.text "\n    path: "),
   .atom (.subst "source_path" none),
   .atom (.text "\n    "),
   .condHelm
     [.text "\n    helm:\n      releaseName: ",
      .subst "app_name" none,
      .text "\n      valueFiles:\n        - values.yaml\n    "],
   .atom (.text "\n  destination:\n    server: "),
   .atom (.subst "dest_server" (some (.lit "https://kubernetes.default.svc"))),
   .atom (.text "\n    namespace: "),
   .atom (.subst "dest_namespace" (some (.varE "app_name"))),
   .atom (.text "\n  syncPolicy:\n    automated:\n      prune: "),
   .atom (.subst "auto_prune" (some (.lit "True"))),
   .atom (.text "\n      selfHeal: "),
   .atom (.subst "self_heal" (some (.lit "True"))),
   .atom (.text "\n    syncOptions:\n      - CreateNamespace=true\n")]

/-- An in-memory template bundle (`TemplateEngine.create_templates`
output entry): kind, pattern name, and the artifact file bodies keyed by
relative path, each stored as its Jinja parse result. -/
structure MTemplate where
  type : String
  name : Yaml
  files : List (FPath × JinjaParse)
deriving DecidableEq

/-- The fixed file set of a generated Helm chart template. -/
def helmTemplateFiles : List (FPath × JinjaParse) :=
  [(["Chart.yaml"], .ok chartTemplateAST),
   (["values.yaml"], .ok valuesTemplateAST),
   (["templates", "deployment.yaml"], deploymentTemplateAST)]

/-- The fixed file set of a generated ArgoCD application template. -/
def argocdTemplateFiles : List (FPath × JinjaParse) :=
  [(["application.yaml"], .ok argocdTemplateAST)]

/-- `TemplateEngine.create_templates` (in-memory path, no output
directory): one bundle per chart or GitOps pattern, other kinds skipped. -/
def createTemplates (ps : List Pattern) : List MTemplate :=
  ps.filterMap (fun p =>
    if p.type = "helm" then
      some { type := "helm", name := p.name, files := helmTemplateFiles }
    else if p.type = "argocd" then
      some { type := "argocd", name := p.name, files := argocdTemplateFiles }
    else none)

/-! ## Applicator (`applicator.py`) -/

/-- One outcome record per pattern attempted.  Message texts are modelled
with repo-relative paths (the Python source interpolates the target
path object, whose absolute location is environmental). -/
structure ApplyResult where
  pattern : String
  status : String
  message : String
deriving DecidableEq

/-- Parse results of freshly written text, supplied by the environment:
`yaml.safe_load` and `jinja2.Template` applied to the new content.  Used
when a later scan reads back a file the applicator wrote. -/
abbrev Oracle := String → Option Yaml × JinjaParse

def mkFile (o : Oracle) (s : String) : MFile :=
  { raw := s, parsed := (o s).1, jinja := (o s).2 }

/-- Python `str()` of a loaded YAML value as used in f-string
interpolation.  The container renderings are approximate (no theorem
exercises them); strings interpolate verbatim. -/
def yamlFmt : Yaml → String
  | .str s => s
  | .nil => "None"
  | .bool true => "True"
  | .bool false => "False"
  | .num n => toString n
  | .list _ => "<list>"
  | .map _ => "<dict>"

/-- The file-copy loop of `PatternApplicator._apply_helm_chart`: every
file below the on-disk chart template directory is written below the
target chart path; files with a yaml/yml/j2 suffix are rendered (raising
`TemplateSyntaxError` mid-loop when the body does not compile, earlier
writes kept), other files are copied byte-for-byte. -/
def applyHelmChartFiles (o : Oracle) (vars : Vars) (base : FPath) (n : Nat) :
    List (FPath × MFile) → FS → Except (FS × String) FS
  | [], fs => .ok fs
  | (p, f) :: rest, fs =>
    let tgt := base ++ p.drop n
    let sfx := pySuffix (p.getLast?.getD "")
    if sfx = ".yaml" || sfx = ".yml" || sfx = ".j2" then
      match f.jinja with
      | .syntaxError => .error (fs, "TemplateSyntaxError")
      | .ok t =>
        applyHelmChartFiles o vars base n rest
          (fs.write tgt (mkFile o (renderNodes vars t)))
    else
      applyHelmChartFiles o vars base n rest (fs.write tgt f)

/-- `PatternApplicator._apply_helm_chart`.  `tfs` is the template
directory's tree, `chartDir` the chart subdirectory inside it, `fs` the
current target tree.  The existence/force test precedes the dry-run
test. -/
def applyHelmChart (o : Oracle) (tfs : FS) (chartDir : FPath) (target : Repo)
    (existingHelm dry force : Bool) (fs : FS) :
    Except (FS × String) (FS × ApplyResult) :=
  let chartName := chartDir.getLast?.getD ""
  let targetPath : FPath := ["deployments", "helm", chartName]
  if existingHelm && !force then
    .ok (fs, ⟨"helm/" ++ chartName, "skipped", "Helm chart already exists"⟩)
  else if dry then
    .ok (fs, ⟨"helm/" ++ chartName, "would_apply",
              "Would create Helm chart at " ++ pathStr targetPath⟩)
  else
    match applyHelmChartFiles o (extractVariablesForRepo target) targetPath
        chartDir.length (tfs.filesUnder chartDir) fs with
    | .error e => .error e
    | .ok fs' =>
      .ok (fs', ⟨"helm/" ++ chartName, "applied",
                 "Created Helm chart at " ++ pathStr targetPath⟩)

/-- `PatternApplicator._apply_argocd_app` (on-disk template file). -/
def applyArgocdApp (o : Oracle) (tfs : FS) (filePath : FPath) (target : Repo)
    (existingArgo dry force : Bool) (fs : FS) :
    Except (FS × String) (FS × ApplyResult) :=
  let fname := filePath.getLast?.getD ""
  let appName := strReplace (pyStem fname) "-application" ""
  let targetPath : FPath := ["deployments", "argocd", fname]
  if existingArgo && !force then
    .ok (fs, ⟨"argocd/" ++ appName, "skipped",
              "ArgoCD application already exists"⟩)
  else if dry then
    .ok (fs, ⟨"argocd/" ++ appName, "would_apply",
              "Would create ArgoCD app at " ++ pathStr targetPath⟩)
  else
    match tfs.lookup filePath with
    | none => .error (fs, "FileNotFoundError")
    | some f =>
      match f.jinja with
      | .syntaxError => .error (fs, "TemplateSyntaxError")
      | .ok t =>
        .ok (fs.write targetPath
               (mkFile o (renderNodes (extractVariablesForRepo target) t)),
             ⟨"argocd/" ++ appName, "applied",
              "Created ArgoCD application at " ++ pathStr targetPath⟩)

/-- The `iterdir` loop body of `apply_patterns` for one template type
directory: a child DIRECTORY is always treated as a Helm chart and a
child yaml/yml FILE as an ArgoCD application, whichever of the two type
directories it sits in; other children are skipped. -/
def applyTypeChildren (o : Oracle) (tfs : FS) (target : Repo)
    (eh ea dry force : Bool) (tt : String) :
    List String → FS → Except (FS × String) (FS × List ApplyResult)
  | [], fs => .ok (fs, [])
  | c :: cs, fs =>
    let step : Except (FS × String) (FS × Option ApplyResult) :=
      if tfs.dirExists [tt, c] then
        (applyHelmChart o tfs [tt, c] target eh dry force fs).map
          (fun x => (x.1, some x.2))
      else if (tfs.lookup [tt, c]).isSome &&
              (pySuffix c = ".yaml" || pySuffix c = ".yml") then
        (applyArgocdApp o tfs [tt, c] target ea dry force fs).map
          (fun x => (x.1, some x.2))
      else .ok (fs, none)
    match step with
    | .error e => .error e
    | .ok (fs', r?) =>
      match applyTypeChildren o tfs target eh ea dry force tt cs fs' with
      | .error e => .error e
      | .ok (fs'', rs) => .ok (fs'', r?.toList ++ rs)

/-- One iteration of the outer `for template_type in ...` loop: skip a
missing type directory; iterating a FILE of that name raises
`NotADirectoryError`. -/
def applyTypeDir (o : Oracle) (tfs : FS) (target : Repo)
    (eh ea dry force : Bool) (tt : String) (fs : FS) :
    Except (FS × String) (FS × List ApplyResult) :=
  if (tfs.lookup [tt]).isSome then .error (fs, "NotADirectoryError")
  else if tfs.dirExists [tt] then
    applyTypeChildren o tfs target eh ea dry force tt (tfs.childrenNames [tt]) fs
  else .ok (fs, [])

/-- `PatternApplicator.apply_patterns`: scan the target once for existing
patterns (keyed by type only), then apply the on-disk templates under
`helm/` and `argocd/`. -/
def applyPatterns (o : Oracle) (tfs : FS) (target : Repo) (dry force : Bool) :
    Except (FS × String) (FS × List ApplyResult) :=
  let existing := scanRepository target
  let eh := existing.any (fun p => p.type = "helm")
  let ea := existing.any (fun p => p.type = "argocd")
  match applyTypeDir o tfs target eh ea dry force "helm" target.fs with
  | .error e => .error e
  | .ok (fs1, rs1) =>
    match applyTypeDir o tfs target eh ea dry force "argocd" fs1 with
    | .error e => .error e
    | .ok (fs2, rs2) => .ok (fs2, rs1 ++ rs2)

/-- The write loop of `_apply_helm_template`: render and write each file
of the in-memory bundle in order; a body that does not compile raises
mid-loop, keeping earlier writes. -/
def writeBundleFiles (o : Oracle) (vars : Vars) (base : FPath) :
    List (FPath × JinjaParse) → FS → Except (FS × String) FS
  | [], fs => .ok fs
  | (rel, jp) :: rest, fs =>
    match jp with
    | .syntaxError => .error (fs, "TemplateSyntaxError")
    | .ok ast =>
      writeBundleFiles o vars base rest
        (fs.write (base ++ rel) (mkFile o (renderNodes vars ast)))

/-- `PatternApplicator._apply_helm_template` (in-memory bundle).  No
existence check and no force flag; the dry-run test is the first test.
Joining the target path with a non-string chart name raises `TypeError`
(before the dry-run test, which follows the path construction). -/
def applyHelmTemplate (o : Oracle) (t : MTemplate) (target : Repo)
    (dry : Bool) (fs : FS) : Except (FS × String) (FS × ApplyResult) :=
  match t.name with
  | .str n =>
    let targetPath : FPath := ["deployments", "helm", n]
    if dry then
      .ok (fs, ⟨"helm/" ++ n, "would_apply",
                "Would create Helm chart at " ++ pathStr targetPath⟩)
    else
      match writeBundleFiles o (extractVariablesForRepo target) targetPath
          t.files fs with
      | .error e => .error e
      | .ok fs' =>
        .ok (fs', ⟨"helm/" ++ n, "applied",
                   "Created Helm chart at " ++ pathStr targetPath⟩)
  | _ => .error (fs, "TypeError")

/-- `PatternApplicator._apply_argocd_template` (in-memory bundle).  The
file name is built by f-string interpolation of the bundle name; the
bundle must contain an `application.yaml` body (`KeyError` otherwise). -/
def applyArgocdTemplate (o : Oracle) (t : MTemplate) (target : Repo)
    (dry : Bool) (fs : FS) : Except (FS × String) (FS × ApplyResult) :=
  let n := yamlFmt t.name
  let targetPath : FPath := ["deployments", "argocd", n ++ "-application.yaml"]
  if dry then
    .ok (fs, ⟨"argocd/" ++ n, "would_apply",
              "Would create ArgoCD app at " ++ pathStr targetPath⟩)
  else
    match t.files.find? (fun q => q.1 = ["application.yaml"]) with
    | none => .error (fs, "KeyError")
    | some (_, .syntaxError) => .error (fs, "TemplateSyntaxError")
    | some (_, .ok ast) =>
      .ok (fs.write targetPath
             (mkFile o (renderNodes (extractVariablesForRepo target) ast)),
           ⟨"argocd/" ++ n, "applied",
            "Created ArgoCD application at " ++ pathStr targetPath⟩)

/-- The template loop of `apply_patterns_direct`; the repository
variables are re-extracted per template (same value each time). -/
def applyPatternsDirectAux (o : Oracle) (target : Repo) (dry : Bool) :
    List MTemplate → FS → Except (FS × String) (FS × List ApplyResult)
  | [], fs => .ok (fs, [])
  | t :: ts, fs =>
    let step : Except (FS × String) (FS × Option ApplyResult) :=
      if t.type = "helm" then
        (applyHelmTemplate o t target dry fs).map (fun x => (x.1, some x.2))
      else if t.type = "argocd" then
        (applyArgocdTemplate o t target dry fs).map (fun x => (x.1, some x.2))
      else .ok (fs, none)
    match step with
    | .error e => .error e
    | .ok (fs', r?) =>
      match applyPatternsDirectAux o target dry ts fs' with
      | .error e => .error e
      | .ok (fs'', rs) => .ok (fs'', r?.toList ++ rs)

/-- `PatternApplicator.apply_patterns_direct`: apply in-memory bundles
straight to the target; no target scan, no existence check, no force
flag. -/
def applyPatternsDirect (o : Oracle) (ts : List MTemplate) (target : Repo)
    (dry : Bool) : Except (FS × String) (FS × List ApplyResult) :=
  applyPatternsDirectAux o target dry ts target.fs

/-- The `replicate` command pipeline: scan the source, build the bundles
in memory, apply them directly to the target. -/
def replicateRun (o : Oracle) (source target : Repo) (dry : Bool) :
    Except (FS × String) (FS × List ApplyResult) :=
  let ps := scanRepository source
  if ps.isEmpty then .ok (target.fs, [])
  else applyPatternsDirect o (createTemplates ps) target dry

/-- Final filesystem state of an apply run, whether it returned or
raised (a raise keeps the writes made before it). -/
def runFS : Except (FS × String) (FS × List ApplyResult) → FS
  | .error (fs, _) => fs
  | .ok (fs, _) => fs

/-- Did the run return normally? -/
def runOk : Except (FS × String) (FS × List ApplyResult) → Bool
  | .error _ => false
  | .ok _ => true

/-- The result records of a run that returned normally. -/
def runResults : Except (FS × String) (FS × List ApplyResult) → List ApplyResult
  | .error _ => []
  | .ok (_, rs) => rs

/-- The error message of a run that raised. -/
def runErr : Except (FS × String) (FS × List ApplyResult) → Option String
  | .error (_, e) => some e
  | .ok _ => none

/-! ## Concrete fixtures used by counterexamples and witnesses -/

/-- A parse environment for freshly written files in scenarios where no
later step reads them back as YAML. -/
def oracle0 : Oracle := fun s => (none, .ok [.atom (.text s)])

/-- A data file whose raw text no modelled step inspects: only its YAML
load result matters.  Its Jinja parse is the body-free compilation of
whatever text produced `y`. -/
def plainFile (y : Yaml) : MFile := { raw := "", parsed := some y, jinja := .ok [] }

/-- The end-to-end source repository of the spec's final property: one
chart named demo (declared version 1.0.0, nginx/latest values) and one
GitOps application named demo. -/
def demoSource : Repo :=
  ⟨"demo-src", none, ⟨[
    (["charts", "demo", "Chart.yaml"],
      plainFile (.map [("apiVersion", .str "v2"), ("name", .str "demo"),
                       ("version", .str "1.0.0"),
                       ("description", .str "Demo application")])),
    (["charts", "demo", "values.yaml"],
      plainFile (.map [("image", .map [("repository", .str "nginx"),
                                       ("tag", .str "latest")])])),
    (["argocd", "demo-app.yaml"],
      plainFile (.map [("apiVersion", .str "argoproj.io/v1alpha1"),
                       ("kind", .str "Application"),
                       ("metadata", .map [("name", .str "demo")]),
                       ("spec", .map [("source",
                          .map [("repoURL", .str "https://x/demo"),
                                ("path", .str "deployments/helm/demo")])])]))]⟩⟩

/-- An empty target repository named demo with no git remote. -/
def demoTarget : Repo := ⟨"demo", none, ⟨[]⟩⟩

/-- An on-disk template directory holding one helm chart directory `app`
that contains only a values file (no `Chart.yaml`), with a
syntactically valid body. -/
def valuesOnlyTemplateDir : FS :=
  ⟨[(["helm", "app", "values.yaml"],
     ⟨"x: 1", some (.map [("x", .num 1)]), .ok [.atom (.text "x: 1")]⟩)]⟩

/-- A target repository already containing a (differently named) helm
chart, so a `helm` pattern is detected in it. -/
def chartPresentTarget : Repo :=
  ⟨"tgt", none, ⟨[(["deployments", "helm", "x", "Chart.yaml"],
                   plainFile (.map [("name", .str "x")]))]⟩⟩

/-- An empty target repository. -/
def emptyTarget : Repo := ⟨"t", none, ⟨[]⟩⟩

/-- A source repository whose `argocd` directory holds two distinct
GitOps application manifests. -/
def twoAppsRepo : Repo :=
  ⟨"src", none, ⟨[
    (["argocd", "a.yaml"],
      plainFile (.map [("apiVersion", .str "argoproj.io/v1alpha1"),
                       ("kind", .str "Application"),
                       ("metadata", .map [("name", .str "alpha")]),
                       ("spec", .map [("source",
                          .map [("repoURL", .str "https://x/a")])])])),
    (["argocd", "b.yaml"],
      plainFile (.map [("apiVersion", .str "argoproj.io/v1alpha1"),
                       ("kind", .str "Application"),
                       ("metadata", .map [("name", .str "beta")]),
                       ("spec", .map [("source", .map [])])]))]⟩⟩

/-! ## C2 -/

/-- C2: the claimed end-to-end behaviour of `replicate` does not happen.
On the exact scenario of the claim (source with one chart demo and one
GitOps app demo, empty target named demo, no git remote), the run raises
`TemplateSyntaxError` — the generated `templates/deployment.yaml` body
embeds Helm-template syntax that Jinja cannot compile — after writing
`deployments/helm/demo/Chart.yaml` (which does contain `name: demo` and
`version: 0.1.0`) and `values.yaml`, and before the ArgoCD bundle is
applied, so `deployments/argocd/demo-application.yaml` is never
produced. -/
theorem c2_replicate_code_bug :
    runOk (replicateRun oracle0 demoSource demoTarget false) = false ∧
    runErr (replicateRun oracle0 demoSource demoTarget false) =
      some "TemplateSyntaxError" ∧
    (runFS (replicateRun oracle0 demoSource demoTarget false)).lookup
      ["deployments", "argocd", "demo-application.yaml"] = none ∧
    ((runFS (replicateRun oracle0 demoSource demoTarget false)).lookup
        ["deployments", "helm", "demo", "Chart.yaml"]).map (fun f => f.raw) =
      some "apiVersion: v2\nname: demo\ndescription: A Helm chart for demo\ntype: application\nversion: 0.1.0\nappVersion: 1.0.0\n" :=
  ⟨rfl, rfl, rfl, rfl⟩

/-! ## C4 -/

/-- C4: counterexample.  Rendering a placeholder that has no binding and
no declared default is NOT a hard error: it succeeds with the
placeholder replaced by the empty string (Jinja default `Undefined`).
The engine's own ArgoCD body renders successfully against an empty
variable set for the same reason. -/
theorem c4_render_counterexample :
    renderTemplate (.ok [.atom (.subst "repo_url" none)]) [] = .ok "" ∧
    (renderTemplate (.ok argocdTemplateAST) []).isOk = true :=
  ⟨rfl, rfl⟩

/-- C4 amended: rendering a compiled template body never fails; an
unbound placeholder with no default renders as the empty string, an
unbound placeholder with a default renders as the default, and a bound
placeholder renders as its value. -/
theorem c4_render_amended (vars : Vars) :
    (∀ nodes, ∃ s, renderTemplate (.ok nodes) vars = .ok s) ∧
    (∀ n, lookupVar vars n = none →
      renderTemplate (.ok [.atom (.subst n none)]) vars = .ok "") ∧
    (∀ n d, lookupVar vars n = none →
      renderTemplate (.ok [.atom (.subst n (some (.lit d)))]) vars = .ok d) ∧
    (∀ n v d, lookupVar vars n = some v →
      renderTemplate (.ok [.atom (.subst n d)]) vars = .ok v) := by
  refine ⟨fun nodes => ⟨renderNodes vars nodes, rfl⟩, ?_, ?_, ?_⟩
  · intro n h
    simp [renderTemplate, renderNodes, renderNode, renderAtom, h]
  · intro n d h
    simp [renderTemplate, renderNodes, renderNode, renderAtom, evalJExpr, h]
  · intro n v d h
    simp [renderTemplate, renderNodes, renderNode, renderAtom, h]

/-- C4 amended, instantiated: with an empty variable set the
`chart_version` placeholder renders to its declared default. -/
theorem c4_render_amended_witness :
    renderTemplate (.ok [.atom (.subst "chart_version" (some (.lit "0.1.0")))])
      [] = .ok "0.1.0" :=
  (c4_render_amended []).2.2.1 "chart_version" "0.1.0" rfl

/-! ## C1 -/

/-- C1: counterexample.  With dry-run on, a template helm chart, and a
target that already contains a helm pattern, `apply_patterns` returns
`skipped`, not `would_apply`: the existence/force test precedes the
dry-run test. -/
theorem c1_dryRun_counterexample :
    (runResults (applyPatterns oracle0 valuesOnlyTemplateDir
        chartPresentTarget true false)).map (fun r => (r.pattern, r.status)) =
      [("helm/app", "skipped")] :=
  rfl

/-! ## C7 -/

/-- C7: counterexample.  A template set whose helm chart directory has no
`Chart.yaml` yields `applied` on BOTH applies with `force = false`: the
written files contain no chart descriptor, so the second target scan
detects no existing helm pattern and nothing is skipped. -/
theorem c7_idempotence_counterexample :
    (runResults (applyPatterns oracle0 valuesOnlyTemplateDir emptyTarget
        false false)).map (fun r => (r.pattern, r.status)) =
      [("helm/app", "applied")] ∧
    (runResults (applyPatterns oracle0 valuesOnlyTemplateDir
        ⟨"t", none, runFS (applyPatterns oracle0 valuesOnlyTemplateDir
                             emptyTarget false false)⟩
        false false)).map (fun r => (r.pattern, r.status)) =
      [("helm/app", "applied")] :=
  ⟨rfl, rfl⟩

/-! ## C3 -/

/-- C3: counterexample.  Two GitOps application manifests in the same
conventional directory produce two patterns with identical
`(kind, sourcePath)`: the sourcePath of a GitOps pattern is its parent
directory, which the two files share. -/
theorem c3_scan_uniqueness_counterexample :
    (scanRepository twoAppsRepo).map (fun p => (p.type, p.path)) =
      [("argocd", ["argocd"]), ("argocd", ["argocd"])] :=
  rfl

/-! ## C5 -/

/-- The claim's characterisation of a GitOps application document,
written from the spec's words: the declared API-group field is a string
starting with the reserved prefix AND the declared kind field is the
literal Application. -/
def specGitOpsApplication (y : Yaml) : Prop :=
  ∃ m av, y = .map m ∧
    Yaml.lookup m "apiVersion" = some (.str av) ∧
    strStartsWith av "argoproj.io/" = true ∧
    Yaml.lookup m "kind" = some (.str "Application")

/-- C5: the classifier accepts exactly the documents whose API-group
field starts with the reserved prefix and whose kind equals
Application; in particular a document whose kind is Application but
whose API-group lacks the prefix is rejected, and a parse failure
classifies as not-a-match instead of raising. -/
theorem c5_classifier :
    isArgocdApp none = false ∧
    ∀ y, isArgocdApp (some y) = true ↔ specGitOpsApplication y := by
  refine ⟨rfl, fun y => ?_⟩
  constructor
  · intro h
    cases y with
    | map m =>
      cases m with
      | nil => simp [isArgocdApp, Yaml.orEmpty, Yaml.falsy, Yaml.lookup] at h
      | cons kv m' =>
        rw [isArgocdApp] at h
        rw [show (Yaml.map (kv :: m')).orEmpty = Yaml.map (kv :: m') from rfl] at h
        rcases Bool.and_eq_true_iff.mp h with ⟨h1, h2⟩
        rcases hav : Yaml.lookup (kv :: m') "apiVersion" with _ | av
        · rw [hav] at h1; cases h1
        · cases av with
          | str s =>
            rw [hav] at h1
            refine ⟨kv :: m', s, rfl, hav, h1, ?_⟩
            exact of_decide_eq_true h2
          | nil => rw [hav] at h1; cases h1
          | bool b => rw [hav] at h1; cases h1
          | num n => rw [hav] at h1; cases h1
          | list l => rw [hav] at h1; cases h1
          | map mm => rw [hav] at h1; cases h1
    | nil => exact absurd h (by simp [isArgocdApp, Yaml.orEmpty, Yaml.falsy, Yaml.lookup])
    | bool b => exact absurd h (by cases b <;> simp [isArgocdApp, Yaml.orEmpty, Yaml.falsy, Yaml.lookup])
    | str s =>
      by_cases hs : s = ""
      · subst hs
        exact absurd h (by simp [isArgocdApp, Yaml.orEmpty, Yaml.falsy, Yaml.lookup])
      · exact absurd h (by simp [isArgocdApp, Yaml.orEmpty, Yaml.falsy, hs])
    | num n =>
      by_cases hn : n = 0
      · subst hn
        exact absurd h (by simp [isArgocdApp, Yaml.orEmpty, Yaml.falsy, Yaml.lookup])
      · exact absurd h (by simp [isArgocdApp, Yaml.orEmpty, Yaml.falsy, hn])
    | list l =>
      cases l with
      | nil => exact absurd h (by simp [isArgocdApp, Yaml.orEmpty, Yaml.falsy, Yaml.lookup])
      | cons a l' => exact absurd h (by simp [isArgocdApp, Yaml.orEmpty, Yaml.falsy])
  · rintro ⟨m, av, rfl, hav, hpre, hkind⟩
    have hm : m ≠ [] := by
      intro he; subst he; cases hav
    rw [isArgocdApp]
    rw [show (Yaml.map m).orEmpty = Yaml.map m by
      simp [Yaml.orEmpty, Yaml.falsy, List.isEmpty_iff, hm]]
    refine Bool.and_eq_true_iff.mpr ⟨?_, ?_⟩
    · rw [hav]; exact hpre
    · exact decide_eq_true (by rw [hkind])

/-! ## Dry-run lemmas for the on-disk apply path -/

/-- The per-result outcome rule of a dry apply: a result produced for a
chart directory (pattern id `helm/...`) is `skipped` exactly when a helm
pattern exists in the target and force is off, else `would_apply`; same
for application files with the `argocd` existence bit. -/
def dryShape (eh ea force : Bool) (r : ApplyResult) : Prop :=
  ((∃ c, r.pattern = "helm/" ++ c) ∧
    r.status = if eh && !force then "skipped" else "would_apply") ∨
  ((∃ c, r.pattern = "argocd/" ++ c) ∧
    r.status = if ea && !force then "skipped" else "would_apply")

theorem applyHelmChart_dry (o : Oracle) (tfs : FS) (d : FPath) (target : Repo)
    (eh force : Bool) (fs : FS) :
    ∃ r, applyHelmChart o tfs d target eh true force fs = .ok (fs, r) ∧
      r.pattern = "helm/" ++ (d.getLast?.getD "") ∧
      r.status = (if eh && !force then "skipped" else "would_apply") := by
  by_cases h : (eh && !force) = true
  · refine ⟨⟨"helm/" ++ (d.getLast?.getD ""), "skipped",
      "Helm chart already exists"⟩, ?_, rfl, by simp [h]⟩
    rw [applyHelmChart]; simp [h]
  · refine ⟨⟨"helm/" ++ (d.getLast?.getD ""), "would_apply",
      "Would create Helm chart at " ++
        pathStr ["deployments", "helm", d.getLast?.getD ""]⟩, ?_, rfl, by simp [h]⟩
    rw [applyHelmChart]; simp [h]

theorem applyArgocdApp_dry (o : Oracle) (tfs : FS) (p : FPath) (target : Repo)
    (ea force : Bool) (fs : FS) :
    ∃ r, applyArgocdApp o tfs p target ea true force fs = .ok (fs, r) ∧
      (∃ c, r.pattern = "argocd/" ++ c) ∧
      r.status = (if ea && !force then "skipped" else "would_apply") := by
  by_cases h : (ea && !force) = true
  · refine ⟨⟨"argocd/" ++ strReplace (pyStem (p.getLast?.getD "")) "-application" "",
      "skipped", "ArgoCD application already exists"⟩, ?_, ⟨_, rfl⟩, by simp [h]⟩
    rw [applyArgocdApp]; simp [h]
  · refine ⟨⟨"argocd/" ++ strReplace (pyStem (p.getLast?.getD "")) "-application" "",
      "would_apply", "Would create ArgoCD app at " ++
        pathStr ["deployments", "argocd", p.getLast?.getD ""]⟩, ?_, ⟨_, rfl⟩, by simp [h]⟩
    rw [applyArgocdApp]; simp [h]

theorem applyTypeChildren_dry (o : Oracle) (tfs : FS) (target : Repo)
    (eh ea force : Bool) (tt : String) :
    ∀ (cs : List String) (fs : FS),
      ∃ rs, applyTypeChildren o tfs target eh ea true force tt cs fs =
              .ok (fs, rs) ∧
        ∀ r ∈ rs, dryShape eh ea force r := by
  intro cs
  induction cs with
  | nil => exact fun fs => ⟨[], rfl, by simp⟩
  | cons c cs ih =>
    intro fs
    obtain ⟨rs, hrec, hall⟩ := ih fs
    by_cases h1 : tfs.dirExists [tt, c] = true
    · obtain ⟨r, hr, hp, hs⟩ := applyHelmChart_dry o tfs [tt, c] target eh force fs
      refine ⟨r :: rs, ?_, ?_⟩
      · rw [applyTypeChildren]
        simp [h1, hr, hrec, Except.map, Option.toList]
      · intro x hx
        rcases List.mem_cons.mp hx with rfl | hx
        · exact Or.inl ⟨⟨_, hp⟩, hs⟩
        · exact hall x hx
    · by_cases h2 : ((tfs.lookup [tt, c]).isSome &&
          (pySuffix c = ".yaml" || pySuffix c = ".yml")) = true
      · obtain ⟨r, hr, hp, hs⟩ := applyArgocdApp_dry o tfs [tt, c] target ea force fs
        refine ⟨r :: rs, ?_, ?_⟩
        · rw [applyTypeChildren]
          rcases Bool.and_eq_true_iff.mp h2 with ⟨h2a, h2b⟩
          simp [h1, h2a, h2b, hr, hrec, Except.map, Option.toList]
        · intro x hx
          rcases List.mem_cons.mp hx with rfl | hx
          · exact Or.inr ⟨hp, hs⟩
          · exact hall x hx
      · refine ⟨rs, ?_, hall⟩
        rw [applyTypeChildren]
        rw [if_neg (by simpa using h1), if_neg (by simpa using h2)]
        simp [hrec, Option.toList]

theorem applyTypeDir_dry (o : Oracle) (tfs : FS) (target : Repo)
    (eh ea force : Bool) (tt : String) (fs : FS) :
    runFS (applyTypeDir o tfs target eh ea true force tt fs) = fs ∧
    ∀ r ∈ runResults (applyTypeDir o tfs target eh ea true force tt fs),
      dryShape eh ea force r := by
  rw [applyTypeDir]
  by_cases h1 : (tfs.lookup [tt]).isSome = true
  · simp [h1, runFS, runResults]
  · by_cases h2 : tfs.dirExists [tt] = true
    · obtain ⟨rs, heq, hall⟩ :=
        applyTypeChildren_dry o tfs target eh ea force tt
          (tfs.childrenNames [tt]) fs
      rw [if_neg (by simpa using h1), if_pos h2, heq]
      exact ⟨rfl, hall⟩
    · rw [if_neg (by simpa using h1), if_neg (by simpa using h2)]
      exact ⟨rfl, by simp [runResults]⟩

theorem applyPatterns_dry (o : Oracle) (tfs : FS) (target : Repo)
    (force : Bool) :
    runFS (applyPatterns o tfs target true force) = target.fs ∧
    ∀ r ∈ runResults (applyPatterns o tfs target true force),
      dryShape ((scanRepository target).any (fun p => p.type = "helm"))
        ((scanRepository target).any (fun p => p.type = "argocd")) force r := by
  rw [applyPatterns]
  set eh := (scanRepository target).any (fun p => p.type = "helm") with heh
  set ea := (scanRepository target).any (fun p => p.type = "argocd") with hea
  have h1 := applyTypeDir_dry o tfs target eh ea force "helm" target.fs
  cases hq1 : applyTypeDir o tfs target eh ea true force "helm" target.fs with
  | error e =>
    rw [hq1] at h1
    simp only [hq1]
    exact ⟨h1.1, by simp [runResults]⟩
  | ok v =>
    obtain ⟨fs1, rs1⟩ := v
    rw [hq1] at h1
    have hfs1 : fs1 = target.fs := h1.1
    subst hfs1
    have h2 := applyTypeDir_dry o tfs target eh ea force "argocd" target.fs
    cases hq2 : applyTypeDir o tfs target eh ea true force "argocd" target.fs with
    | error e =>
      rw [hq2] at h2
      simp only [hq1, hq2]
      exact ⟨h2.1, by simp [runResults]⟩
    | ok w =>
      obtain ⟨fs2, rs2⟩ := w
      rw [hq2] at h2
      have hfs2 : fs2 = target.fs := h2.1
      subst hfs2
      simp only [hq1, hq2]
      refine ⟨rfl, ?_⟩
      intro r hr
      simp only [runResults] at hr h1 h2
      rcases List.mem_append.mp hr with h | h
      · exact h1.2 r h
      · exact h2.2 r h

/-! ## Dry-run and status lemmas for the direct apply path -/

theorem applyArgocdTemplate_dry (o : Oracle) (t : MTemplate) (target : Repo)
    (fs : FS) :
    applyArgocdTemplate o t target true fs =
      .ok (fs, ⟨"argocd/" ++ yamlFmt t.name, "would_apply",
        "Would create ArgoCD app at " ++ pathStr ["deployments", "argocd",
          yamlFmt t.name ++ "-application.yaml"]⟩) :=
  rfl

theorem applyHelmTemplate_dry (o : Oracle) (t : MTemplate) (target : Repo)
    (fs : FS) :
    applyHelmTemplate o t target true fs = .error (fs, "TypeError") ∨
    ∃ r, applyHelmTemplate o t target true fs = .ok (fs, r) ∧
      r.status = "would_apply" := by
  rw [applyHelmTemplate]
  cases t.name with
  | str n => exact Or.inr ⟨_, rfl, rfl⟩
  | nil => exact Or.inl rfl
  | bool b => exact Or.inl rfl
  | num x => exact Or.inl rfl
  | list l => exact Or.inl rfl
  | map m => exact Or.inl rfl

theorem applyPatternsDirectAux_dry (o : Oracle) (target : Repo) :
    ∀ (ts : List MTemplate) (fs : FS),
      runFS (applyPatternsDirectAux o target true ts fs) = fs := by
  intro ts
  induction ts with
  | nil => intro fs; rfl
  | cons t ts ih =>
    intro fs
    rw [applyPatternsDirectAux]
    by_cases h1 : t.type = "helm"
    · rw [if_pos h1]
      rcases applyHelmTemplate_dry o t target fs with h | ⟨r, h, _⟩
      · rw [h]; rfl
      · rw [h]
        cases hrec : applyPatternsDirectAux o target true ts fs with
        | error e =>
          have := ih fs
          rw [hrec] at this
          simpa [Except.map, hrec, runFS] using this
        | ok v =>
          have := ih fs
          rw [hrec] at this
          simpa [Except.map, hrec, runFS] using this
    · rw [if_neg h1]
      by_cases h2 : t.type = "argocd"
      · rw [if_pos h2, applyArgocdTemplate_dry]
        cases hrec : applyPatternsDirectAux o target true ts fs with
        | error e =>
          have := ih fs
          rw [hrec] at this
          simpa [Except.map, hrec, runFS] using this
        | ok v =>
          have := ih fs
          rw [hrec] at this
          simpa [Except.map, hrec, runFS] using this
      · rw [if_neg h2]
        cases hrec : applyPatternsDirectAux o target true ts fs with
        | error e =>
          have := ih fs
          rw [hrec] at this
          simpa [hrec, runFS] using this
        | ok v =>
          have := ih fs
          rw [hrec] at this
          simpa [hrec, runFS] using this

theorem applyHelmTemplate_ok_status (o : Oracle) (t : MTemplate)
    (target : Repo) (dry : Bool) (fs fs2 : FS) (r : ApplyResult)
    (h : applyHelmTemplate o t target dry fs = .ok (fs2, r)) :
    r.status = if dry then "would_apply" else "applied" := by
  rw [applyHelmTemplate] at h
  cases hn : t.name <;> rw [hn] at h
  case str n =>
    cases dry with
    | true =>
      replace h : Except.ok (fs, (⟨"helm/" ++ n, "would_apply",
          "Would create Helm chart at " ++ pathStr ["deployments", "helm", n]⟩ :
            ApplyResult)) = Except.ok (fs2, r) := h
      injection h with h'
      rw [show r = (Prod.mk fs2 r).2 from rfl, ← h']; rfl
    | false =>
      replace h : (match writeBundleFiles o (extractVariablesForRepo target)
            ["deployments", "helm", n] t.files fs with
          | Except.error e => Except.error e
          | Except.ok fsw => Except.ok (fsw, (⟨"helm/" ++ n, "applied",
              "Created Helm chart at " ++ pathStr ["deployments", "helm", n]⟩ :
                ApplyResult))) = Except.ok (fs2, r) := h
      cases hw : writeBundleFiles o (extractVariablesForRepo target)
          ["deployments", "helm", n] t.files fs <;> rw [hw] at h
      case error e => cases h
      case ok fsw =>
        injection h with h'
        rw [show r = (Prod.mk fs2 r).2 from rfl, ← h']; rfl
  all_goals cases h

theorem applyArgocdTemplate_ok_status (o : Oracle) (t : MTemplate)
    (target : Repo) (dry : Bool) (fs fs2 : FS) (r : ApplyResult)
    (h : applyArgocdTemplate o t target dry fs = .ok (fs2, r)) :
    r.status = if dry then "would_apply" else "applied" := by
  rw [applyArgocdTemplate] at h
  cases dry with
  | true =>
    replace h : Except.ok (fs, (⟨"argocd/" ++ yamlFmt t.name, "would_apply",
        "Would create ArgoCD app at " ++ pathStr ["deployments", "argocd",
          yamlFmt t.name ++ "-application.yaml"]⟩ : ApplyResult)) =
        Except.ok (fs2, r) := h
    injection h with h'
    rw [show r = (Prod.mk fs2 r).2 from rfl, ← h']; rfl
  | false =>
    replace h : (match t.files.find? (fun q => q.1 = ["application.yaml"]) with
        | none => Except.error (fs, "KeyError")
        | some (_, JinjaParse.syntaxError) =>
            Except.error (fs, "TemplateSyntaxError")
        | some (_, JinjaParse.ok ast) =>
          Except.ok (fs.write ["deployments", "argocd",
              yamlFmt t.name ++ "-application.yaml"]
              (mkFile o (renderNodes (extractVariablesForRepo target) ast)),
            (⟨"argocd/" ++ yamlFmt t.name, "applied",
              "Created ArgoCD application at " ++ pathStr ["deployments",
                "argocd", yamlFmt t.name ++ "-application.yaml"]⟩ :
              ApplyResult))) = Except.ok (fs2, r) := h
    cases hf : t.files.find? (fun q => q.1 = ["application.yaml"]) <;>
      rw [hf] at h
    case none => cases h
    case some v =>
      obtain ⟨p, jp⟩ := v
      cases jp with
      | syntaxError => cases h
      | ok ast =>
        injection h with h'
        rw [show r = (Prod.mk fs2 r).2 from rfl, ← h']; rfl

theorem applyPatternsDirectAux_ok_status (o : Oracle) (target : Repo)
    (dry : Bool) :
    ∀ (ts : List MTemplate) (fs fs' : FS) (rs : List ApplyResult),
      applyPatternsDirectAux o target dry ts fs = .ok (fs', rs) →
      ∀ r ∈ rs, r.status = if dry then "would_apply" else "applied" := by
  intro ts
  induction ts with
  | nil =>
    intro fs fs' rs h r hr
    rw [applyPatternsDirectAux] at h
    injection h with h'
    have hrs : ([] : List ApplyResult) = rs := congrArg Prod.snd h'
    rw [← hrs] at hr
    cases hr
  | cons t ts ih =>
    intro fs fs' rs h r hr
    rw [applyPatternsDirectAux] at h
    by_cases h1 : t.type = "helm"
    · rw [if_pos h1] at h
      cases hh : applyHelmTemplate o t target dry fs with
      | error e => rw [hh] at h; simp [Except.map] at h
      | ok v =>
        obtain ⟨fs2, r2⟩ := v
        rw [hh] at h
        cases hrec : applyPatternsDirectAux o target dry ts fs2 with
        | error e => simp [Except.map, hrec] at h
        | ok w =>
          obtain ⟨fs3, rs3⟩ := w
          simp only [Except.map, hrec, Option.toList, Except.ok.injEq,
            Prod.mk.injEq] at h
          rw [← h.2] at hr
          rcases List.mem_cons.mp hr with rfl | hmem
          · exact applyHelmTemplate_ok_status o t target dry fs fs2 r hh
          · exact ih fs2 fs3 rs3 hrec r hmem
    · rw [if_neg h1] at h
      by_cases h2 : t.type = "argocd"
      · rw [if_pos h2] at h
        cases hh : applyArgocdTemplate o t target dry fs with
        | error e => rw [hh] at h; simp [Except.map] at h
        | ok v =>
          obtain ⟨fs2, r2⟩ := v
          rw [hh] at h
          cases hrec : applyPatternsDirectAux o target dry ts fs2 with
          | error e => simp [Except.map, hrec] at h
          | ok w =>
            obtain ⟨fs3, rs3⟩ := w
            simp only [Except.map, hrec, Option.toList, Except.ok.injEq,
              Prod.mk.injEq] at h
            rw [← h.2] at hr
            rcases List.mem_cons.mp hr with rfl | hmem
            · exact applyArgocdTemplate_ok_status o t target dry fs fs2 r hh
            · exact ih fs2 fs3 rs3 hrec r hmem
      · rw [if_neg h2] at h
        cases hrec : applyPatternsDirectAux o target dry ts fs with
        | error e => simp [hrec] at h
        | ok w =>
          obtain ⟨fs3, rs3⟩ := w
          simp only [hrec, Option.toList, List.nil_append, Except.ok.injEq,
            Prod.mk.injEq] at h
          rw [← h.2] at hr
          exact ih fs fs3 rs3 hrec r hr

/-! ## C8 -/

/-- C8: with dry-run enabled, neither apply entry point (the on-disk
`apply_patterns` nor the direct `apply_patterns_direct`) creates or
modifies anything on the target filesystem: the final state equals the
initial state, also when the run raises. -/
theorem c8_dryRun_frame :
    (∀ (o : Oracle) (tfs : FS) (target : Repo) (force : Bool),
      runFS (applyPatterns o tfs target true force) = target.fs) ∧
    (∀ (o : Oracle) (ts : List MTemplate) (target : Repo),
      runFS (applyPatternsDirect o ts target true) = target.fs) :=
  ⟨fun o tfs target force => (applyPatterns_dry o tfs target force).1,
   fun o ts target => applyPatternsDirectAux_dry o target ts target.fs⟩

/-! ## C1 -/

/-- C1 amended: with dry-run on, `apply_patterns` performs no filesystem
mutation, and each returned result is `would_apply` UNLESS a same-kind
pattern already exists in the target and force is off, in which case the
existence test fires first and the result is `skipped` (see
`c1_dryRun_counterexample`). -/
theorem c1_dryRun_amended (o : Oracle) (tfs : FS) (target : Repo)
    (force : Bool) :
    runFS (applyPatterns o tfs target true force) = target.fs ∧
    ∀ r ∈ runResults (applyPatterns o tfs target true force),
      dryShape ((scanRepository target).any (fun p => p.type = "helm"))
        ((scanRepository target).any (fun p => p.type = "argocd")) force r :=
  applyPatterns_dry o tfs target force

/-- C1 amended, instantiated: the dry-run result of applying a helm
chart template to a target already holding a helm pattern with force off
obeys the amended rule (and is the `skipped` record). -/
theorem c1_dryRun_amended_witness :
    dryShape true false false
      ⟨"helm/app", "skipped", "Helm chart already exists"⟩ := by
  have h := c1_dryRun_amended oracle0 valuesOnlyTemplateDir
    chartPresentTarget false
  exact h.2 _ (by decide)

/-! ## C10 -/

/-- C10: whenever `apply_patterns_direct` returns, every result's status
is `would_apply` with dry-run on and `applied` with dry-run off —
determined by the dry-run flag alone, never `skipped`; the function
makes no existence check against the target and takes no force flag. -/
theorem c10_direct_apply_no_skip (o : Oracle) (ts : List MTemplate)
    (target : Repo) (dry : Bool) (fs' : FS) (rs : List ApplyResult)
    (h : applyPatternsDirect o ts target dry = .ok (fs', rs)) :
    ∀ r ∈ rs, r.status = (if dry then "would_apply" else "applied") ∧
      r.status ≠ "skipped" := by
  intro r hr
  have hst := applyPatternsDirectAux_ok_status o target dry ts target.fs fs' rs h r hr
  refine ⟨hst, ?_⟩
  rw [hst]
  cases dry <;> simp

/-- C10, instantiated on the demo pipeline in dry-run mode: the result
returned for the helm bundle is not `skipped`. -/
theorem c10_direct_apply_no_skip_witness :
    ({ pattern := "helm/demo", status := "would_apply",
       message := "Would create Helm chart at deployments/helm/demo" } :
      ApplyResult).status ≠ "skipped" := by
  have h := c10_direct_apply_no_skip oracle0
    (createTemplates (scanRepository demoSource)) demoTarget true _ _ rfl
  exact (h _ (by decide)).2

/-! ## C6 -/

theorem orEmpty_map (vs : List (String × Yaml)) :
    (Yaml.map vs).orEmpty = .map vs := by
  cases vs with
  | nil => rfl
  | cons a l => rfl

theorem lookup_setKey_self (b : List (String × Yaml)) (k : String) (v : Yaml) :
    Yaml.lookup (setKey b k v) k = some v := by
  induction b with
  | nil => simp [setKey, Yaml.lookup]
  | cons a l ih =>
    obtain ⟨k', v'⟩ := a
    by_cases h : k' = k
    · simp [setKey, h, Yaml.lookup]
    · simp [setKey, h, Yaml.lookup, ih]

theorem lookup_setKey_ne (b : List (String × Yaml)) (k : String) (v : Yaml)
    (k' : String) (h : k' ≠ k) :
    Yaml.lookup (setKey b k v) k' = Yaml.lookup b k' := by
  induction b with
  | nil => simp [setKey, Yaml.lookup, Ne.symm h]
  | cons a l ih =>
    obtain ⟨ka, va⟩ := a
    by_cases hk : ka = k
    · subst hk
      simp [setKey, Yaml.lookup, Ne.symm h]
    · simp [setKey, hk, Yaml.lookup, ih]

theorem lookup_eq_none_of_not_mem (m : List (String × Yaml)) (k : String)
    (h : k ∉ m.map Prod.fst) : Yaml.lookup m k = none := by
  induction m with
  | nil => rfl
  | cons a l ih =>
    obtain ⟨ka, va⟩ := a
    simp only [List.map_cons, List.mem_cons] at h
    push_neg at h
    simp [Yaml.lookup, Ne.symm h.1, ih h.2]

theorem lookup_dictUpdate (im : List (String × Yaml)) :
    ∀ (b : List (String × Yaml)) (k : String),
      (im.map Prod.fst).Nodup →
      Yaml.lookup (dictUpdate b im) k =
        (match Yaml.lookup im k with
         | some v => some v
         | none => Yaml.lookup b k) := by
  induction im with
  | nil => intro b k _; simp [dictUpdate, Yaml.lookup]
  | cons a tl ih =>
    intro b k hnd
    obtain ⟨k0, v0⟩ := a
    simp only [List.map_cons, List.nodup_cons] at hnd
    have step : dictUpdate b ((k0, v0) :: tl) = dictUpdate (setKey b k0 v0) tl := rfl
    rw [step, ih (setKey b k0 v0) k hnd.2]
    by_cases hk : k = k0
    · subst hk
      rw [lookup_eq_none_of_not_mem tl k hnd.1]
      simp [Yaml.lookup, lookup_setKey_self]
    · rw [lookup_setKey_ne b k0 v0 k hk]
      simp [Yaml.lookup, Ne.symm hk]

theorem extractHelm_values_eq (r : Repo) (pat : Pattern) (f : MFile)
    (vs : List (String × Yaml))
    (hf : r.fs.lookup (pat.path ++ ["values.yaml"]) = some f)
    (hp : f.parsed = some (.map vs)) :
    (Yaml.lookup vs "image" = none →
      extractHelmParameters r pat = .ok
        { appName := pat.name,
          nspace := (Yaml.lookup vs "namespace").getD (.str "default"),
          image := [("repository", .str ""), ("tag", .str "latest")] }) ∧
    (∀ im, Yaml.lookup vs "image" = some (.map im) →
      extractHelmParameters r pat = .ok
        { appName := pat.name,
          nspace := (Yaml.lookup vs "namespace").getD (.str "default"),
          image := dictUpdate [("repository", .str ""), ("tag", .str "latest")]
                     im }) := by
  constructor
  · intro himg
    rw [extractHelmParameters, hf]
    simp only [hp, orEmpty_map, Yaml.pyIn, himg, Option.isSome_none]
    by_cases hns : Yaml.lookup vs "namespace" = none
    · simp [hns]
    · obtain ⟨ns, hns'⟩ := Option.ne_none_iff_exists'.mp hns
      simp [hns']
  · intro im himg
    rw [extractHelmParameters, hf]
    simp only [hp, orEmpty_map, Yaml.pyIn, himg, Option.isSome_some]
    by_cases hns : Yaml.lookup vs "namespace" = none
    · simp [hns]
    · obtain ⟨ns, hns'⟩ := Option.ne_none_iff_exists'.mp hns
      simp [hns']

/-- C6: the Chart parameter extraction.  With no values file the record
is pure defaults (appName = pattern name, namespace default, image
defaults empty-string/latest).  With a dict-shaped values file: the
namespace is the explicit top-level key when present, else the default;
an absent image key leaves the image defaults; a dict-valued image key
is merged over the defaults, so each unset field keeps its default.  The
claim's concrete instance (values `image: tag: v2` with no repository)
yields tag v2 and the preserved empty repository default. -/
theorem c6_extract_chart_params :
    (∀ (r : Repo) (pat : Pattern),
      r.fs.lookup (pat.path ++ ["values.yaml"]) = none →
      extractHelmParameters r pat = .ok
        { appName := pat.name, nspace := .str "default",
          image := [("repository", .str ""), ("tag", .str "latest")] }) ∧
    (∀ (r : Repo) (pat : Pattern) (f : MFile) (vs : List (String × Yaml)),
      r.fs.lookup (pat.path ++ ["values.yaml"]) = some f →
      f.parsed = some (.map vs) →
      (Yaml.lookup vs "image" = none →
        ∃ P, extractHelmParameters r pat = .ok P ∧ P.appName = pat.name ∧
          P.image = [("repository", .str ""), ("tag", .str "latest")] ∧
          P.nspace = (Yaml.lookup vs "namespace").getD (.str "default")) ∧
      (∀ im, Yaml.lookup vs "image" = some (.map im) →
        (im.map Prod.fst).Nodup →
        ∃ P, extractHelmParameters r pat = .ok P ∧ P.appName = pat.name ∧
          P.nspace = (Yaml.lookup vs "namespace").getD (.str "default") ∧
          Yaml.lookup P.image "repository" =
            some ((Yaml.lookup im "repository").getD (.str "")) ∧
          Yaml.lookup P.image "tag" =
            some ((Yaml.lookup im "tag").getD (.str "latest")))) ∧
    (∀ (r : Repo) (pat : Pattern) (f : MFile),
      r.fs.lookup (pat.path ++ ["values.yaml"]) = some f →
      f.parsed = some (.map [("image", .map [("tag", .str "v2")])]) →
      extractHelmParameters r pat = .ok
        { appName := pat.name, nspace := .str "default",
          image := [("repository", .str ""), ("tag", .str "v2")] }) := by
  refine ⟨?_, ?_, ?_⟩
  · intro r pat h
    rw [extractHelmParameters, h]
  · intro r pat f vs hf hp
    constructor
    · intro himg
      exact ⟨_, (extractHelm_values_eq r pat f vs hf hp).1 himg, rfl, rfl, rfl⟩
    · intro im himg hnd
      refine ⟨_, (extractHelm_values_eq r pat f vs hf hp).2 im himg,
        rfl, rfl, ?_, ?_⟩
      · show Yaml.lookup
          (dictUpdate [("repository", .str ""), ("tag", .str "latest")] im)
          "repository" = _
        rw [lookup_dictUpdate im _ _ hnd]
        cases Yaml.lookup im "repository" <;> simp [Yaml.lookup]
      · show Yaml.lookup
          (dictUpdate [("repository", .str ""), ("tag", .str "latest")] im)
          "tag" = _
        rw [lookup_dictUpdate im _ _ hnd]
        cases Yaml.lookup im "tag" <;> simp [Yaml.lookup]
  · intro r pat f hf hp
    exact (extractHelm_values_eq r pat f _ hf hp).2 [("tag", .str "v2")] rfl

/-- A repository holding one values file declaring only an image tag. -/
def valuesTagOnlyRepo : Repo :=
  ⟨"vr", none, ⟨[(["c", "values.yaml"],
    plainFile (.map [("image", .map [("tag", .str "v2")])]))]⟩⟩

/-- The chart pattern whose directory is that repository's `c`. -/
def chartPat : Pattern :=
  { type := "helm", name := .str "demo", path := ["c"],
    configs := [["c", "values.yaml"]], version := some (.str "1.0.0") }

/-- C6, instantiated on the claim's concrete example. -/
theorem c6_extract_chart_params_witness :
    extractHelmParameters valuesTagOnlyRepo chartPat = .ok
      { appName := .str "demo", nspace := .str "default",
        image := [("repository", .str ""), ("tag", .str "v2")] } :=
  c6_extract_chart_params.2.2 valuesTagOnlyRepo chartPat
    (plainFile (.map [("image", .map [("tag", .str "v2")])])) rfl rfl

/-! ## C9 -/

theorem except_toOption_eq_some {ε α : Type} (e : Except ε α) (a : α) :
    e.toOption = some a ↔ e = .ok a := by
  cases e <;> simp [Except.toOption]

theorem analyzeHelm_ok_fields (r : Repo) (d : FPath) (p : Pattern)
    (h : analyzeHelmChart r d = .ok p) : p.type = "helm" ∧ p.path = d := by
  rw [analyzeHelmChart] at h
  split at h
  · cases h
  · split at h
    · cases h
    · split at h
      · injection h with h'; rw [← h']; exact ⟨rfl, rfl⟩
      · cases h

theorem analyzeArgo_ok_fields (r : Repo) (q : FPath) (p : Pattern)
    (h : analyzeArgocdApp r q = .ok p) :
    p.type = "argocd" ∧ p.configs = [q] := by
  rw [analyzeArgocdApp] at h
  split at h
  · cases h
  · split at h
    · cases h
    · split at h
      · split at h
        · split at h
          · split at h
            · injection h with h'; rw [← h']; exact ⟨rfl, rfl⟩
            · cases h
          · cases h
        · cases h
      · cases h

theorem helmDetect_mem (r : Repo) (p : Pattern) :
    p ∈ helmDetect r ↔
      ∃ d, d ∈ chartDirs r.fs ∧ analyzeHelmChart r d = .ok p := by
  simp only [helmDetect, List.mem_filterMap, except_toOption_eq_some]

theorem helmDetectDiags_mem (r : Repo) (e : String) :
    e ∈ helmDetectDiags r ↔
      ∃ d, d ∈ chartDirs r.fs ∧ analyzeHelmChart r d = .error e := by
  simp only [helmDetectDiags, List.mem_filterMap]
  constructor
  · rintro ⟨d, hd, hmatch⟩
    refine ⟨d, hd, ?_⟩
    cases ha : analyzeHelmChart r d <;> rw [ha] at hmatch
    · injection hmatch with h'; rw [h']
    · cases hmatch
  · rintro ⟨d, hd, ha⟩
    exact ⟨d, hd, by rw [ha]⟩

theorem argocdPass1_mem (r : Repo) (p : Pattern) (h : p ∈ argocdPass1 r) :
    ∃ q, q ∈ argocdPass1Files r ∧ isArgocdApp (parsedAt r q) = true ∧
      analyzeArgocdApp r q = .ok p := by
  simp only [argocdPass1, List.mem_filterMap] at h
  obtain ⟨q, hq, hmatch⟩ := h
  by_cases hc : isArgocdApp (parsedAt r q) = true
  · rw [if_pos hc, except_toOption_eq_some] at hmatch
    exact ⟨q, hq, hc, hmatch⟩
  · rw [if_neg hc] at hmatch
    cases hmatch

theorem argocdPass2_mem (r : Repo) :
    ∀ (ps : List FPath) (acc : List Pattern) (p : Pattern),
      p ∈ argocdPass2 r acc ps →
      p ∈ acc ∨ ∃ q, analyzeArgocdApp r q = .ok p := by
  intro ps
  induction ps with
  | nil => intro acc p h; exact Or.inl h
  | cons q ps ih =>
    intro acc p h
    rw [argocdPass2] at h
    by_cases hc : isArgocdApp (parsedAt r q) = true
    · rw [if_pos hc] at h
      cases ha : analyzeArgocdApp r q with
      | error e => rw [ha] at h; exact ih acc p h
      | ok pat =>
        rw [ha] at h
        rcases ih _ p h with hmem | hex
        · by_cases hdup : acc.contains pat = true
          · rw [if_pos hdup] at hmem
            exact Or.inl hmem
          · rw [if_neg hdup] at hmem
            rcases List.mem_append.mp hmem with hmem | hmem
            · exact Or.inl hmem
            · rcases List.mem_singleton.mp hmem with rfl
              exact Or.inr ⟨q, ha⟩
        · exact Or.inr hex
    · rw [if_neg hc] at h
      exact ih acc p h

theorem argocdDetect_mem (r : Repo) (p : Pattern) (h : p ∈ argocdDetect r) :
    ∃ q, analyzeArgocdApp r q = .ok p := by
  rcases argocdPass2_mem r (argocdPass2Files r) (argocdPass1 r) p h with h1 | h2
  · obtain ⟨q, _, _, hq⟩ := argocdPass1_mem r p h1
    exact ⟨q, hq⟩
  · exact h2

theorem argocdDetectDiags_mem_of (r : Repo) (q : FPath) (e : String)
    (hf : q ∈ argocdPass1Files r) (hc : isArgocdApp (parsedAt r q) = true)
    (ha : analyzeArgocdApp r q = .error e) : e ∈ argocdDetectDiags r := by
  rw [argocdDetectDiags]
  apply List.mem_filterMap.mpr
  refine ⟨q, ?_, by rw [ha]⟩
  exact List.mem_filter.mpr ⟨List.mem_append.mpr (Or.inl hf), hc⟩

theorem lookup_mem (fs : FS) (p : FPath) (f : MFile)
    (h : fs.lookup p = some f) : (p, f) ∈ fs.files := by
  rw [FS.lookup] at h
  cases hf : fs.files.find? (fun q => q.1 = p) <;> rw [hf] at h
  · cases h
  · injection h with h'
    rename_i q
    have hq : q ∈ fs.files := List.mem_of_find?_eq_some hf
    have hp : q.1 = p := by
      have := List.find?_some hf
      exact of_decide_eq_true this
    have : q = (p, f) := by
      obtain ⟨q1, q2⟩ := q
      simp only at hp h'
      rw [hp, h']
    rw [← this]
    exact hq

theorem chartDirs_mem_of (fs : FS) (d : FPath) (f : MFile)
    (hmem : (d ++ ["Chart.yaml"], f) ∈ fs.files)
    (hnv : hiddenOrVendor (d ++ ["Chart.yaml"]) = false) :
    d ∈ chartDirs fs := by
  rw [chartDirs]
  apply List.mem_filterMap.mpr
  refine ⟨(d ++ ["Chart.yaml"], f), hmem, ?_⟩
  simp [hnv, List.getLast?_concat, List.dropLast_concat]

/-- C9: fail-open scanning.  In any repository: a Chart.yaml whose YAML
load raises yields NO helm pattern for its directory, but a diagnostic
line; a well-formed chart elsewhere is still detected; a GitOps
candidate whose analysis raises is excluded from every GitOps pattern's
config files, with a diagnostic when it came from a conventional
directory; and the scan returns normally in all these cases. -/
theorem c9_scan_fail_open (r : Repo) (d d' qa : FPath)
    (fbad fgood : MFile) (y : Yaml) (m : List (String × Yaml)) (e : String)
    (h1 : r.fs.lookup (d ++ ["Chart.yaml"]) = some fbad)
    (h2 : fbad.parsed = none)
    (h3 : hiddenOrVendor (d ++ ["Chart.yaml"]) = false)
    (h4 : r.fs.lookup (d' ++ ["Chart.yaml"]) = some fgood)
    (h5 : fgood.parsed = some y)
    (h6 : y.orEmpty = .map m)
    (h7 : hiddenOrVendor (d' ++ ["Chart.yaml"]) = false)
    (h8 : isArgocdApp (parsedAt r qa) = true)
    (h9 : analyzeArgocdApp r qa = .error e) :
    (∀ p ∈ scanRepository r, ¬(p.type = "helm" ∧ p.path = d)) ∧
    ("Error analyzing Helm chart at " ++ pathStr d) ∈ scanDiags r ∧
    (∃ p ∈ scanRepository r, p.type = "helm" ∧ p.path = d') ∧
    (∀ p ∈ scanRepository r, p.type = "argocd" → qa ∉ p.configs) ∧
    (qa ∈ argocdPass1Files r → e ∈ scanDiags r) := by
  have hbad : analyzeHelmChart r d =
      .error ("Error analyzing Helm chart at " ++ pathStr d) := by
    rw [analyzeHelmChart]
    simp only [h1, h2]
  have hgood : ∃ pp, analyzeHelmChart r d' = .ok pp := by
    rw [analyzeHelmChart]
    simp only [h4, h5, h6]
    exact ⟨_, rfl⟩
  refine ⟨?_, ?_, ?_, ?_, ?_⟩
  · rintro p hp ⟨hty, hpath⟩
    rcases List.mem_append.mp hp with hh | ha
    · obtain ⟨dd, hdd, hok⟩ := (helmDetect_mem r p).mp hh
      have hfld := analyzeHelm_ok_fields r dd p hok
      rw [hfld.2] at hpath
      rw [hpath] at hok
      rw [hbad] at hok
      cases hok
    · obtain ⟨q', hok⟩ := argocdDetect_mem r p ha
      have hfld := analyzeArgo_ok_fields r q' p hok
      rw [hfld.1] at hty
      exact absurd hty (by decide)
  · apply List.mem_append.mpr
    apply Or.inl
    apply (helmDetectDiags_mem r _).mpr
    exact ⟨d, chartDirs_mem_of r.fs d fbad (lookup_mem r.fs _ fbad h1) h3, hbad⟩
  · obtain ⟨pp, hok⟩ := hgood
    have hfld := analyzeHelm_ok_fields r d' pp hok
    refine ⟨pp, ?_, hfld.1, hfld.2⟩
    apply List.mem_append.mpr
    apply Or.inl
    apply (helmDetect_mem r pp).mpr
    exact ⟨d', chartDirs_mem_of r.fs d' fgood (lookup_mem r.fs _ fgood h4) h7, hok⟩
  · intro p hp hty hq
    rcases List.mem_append.mp hp with hh | ha
    · obtain ⟨dd, hdd, hok⟩ := (helmDetect_mem r p).mp hh
      have hfld := analyzeHelm_ok_fields r dd p hok
      rw [hfld.1] at hty
      exact absurd hty (by decide)
    · obtain ⟨q', hok⟩ := argocdDetect_mem r p ha
      have hfld := analyzeArgo_ok_fields r q' p hok
      rw [hfld.2] at hq
      rcases List.mem_singleton.mp hq with rfl
      rw [h9] at hok
      cases hok
  · intro hmem
    apply List.mem_append.mpr
    apply Or.inr
    exact argocdDetectDiags_mem_of r qa e hmem h8 h9

/-- The C9 witness repository: a malformed Chart.yaml, a well-formed
chart, and a classifiable GitOps manifest whose metadata is a string so
its analysis raises. -/
def c9repo : Repo :=
  ⟨"r9", none, ⟨[
    (["bad", "Chart.yaml"], ⟨"not: valid: yaml", none, .ok []⟩),
    (["good", "Chart.yaml"],
      plainFile (.map [("name", .str "good"), ("version", .str "2.0.0")])),
    (["argocd", "broken.yaml"],
      plainFile (.map [("apiVersion", .str "argoproj.io/v1alpha1"),
                       ("kind", .str "Application"),
                       ("metadata", .str "oops")]))]⟩⟩

/-- C9, instantiated: both failing files produce their diagnostic lines
on the witness repository (and, per the theorem, are excluded from the
scan result while the good chart is kept). -/
theorem c9_scan_fail_open_witness :
    ("Error analyzing Helm chart at bad") ∈ scanDiags c9repo ∧
    ("Error analyzing ArgoCD app at argocd/broken.yaml") ∈ scanDiags c9repo := by
  have h := c9_scan_fail_open c9repo ["bad"] ["good"] ["argocd", "broken.yaml"]
    (⟨"not: valid: yaml", none, .ok []⟩)
    (plainFile (.map [("name", .str "good"), ("version", .str "2.0.0")]))
    (.map [("name", .str "good"), ("version", .str "2.0.0")])
    [("name", .str "good"), ("version", .str "2.0.0")]
    "Error analyzing ArgoCD app at argocd/broken.yaml"
    rfl rfl (by decide) rfl rfl rfl (by decide) (by decide) rfl
  exact ⟨h.2.1, h.2.2.2.2 (by decide)⟩

/-! ## C3 (amended) -/

theorem getLast?_eq_some_decomp (l : List String) (a : String)
    (h : l.getLast? = some a) : l = l.dropLast ++ [a] := by
  induction l with
  | nil => cases h
  | cons x xs ih =>
    cases xs with
    | nil =>
      injection h with h'
      have hx : x = a := h'
      simp [hx]
    | cons y ys =>
      rw [List.getLast?_cons_cons] at h
      have := ih h
      simp only [List.dropLast_cons₂, List.cons_append]
      exact congrArg (x :: ·) this

theorem chartDirs_nodup (fs : FS)
    (hn : (fs.files.map Prod.fst).Nodup) : (chartDirs fs).Nodup := by
  rw [chartDirs]
  have hp : fs.files.Pairwise (fun a b => a.1 ≠ b.1) := List.pairwise_map.mp hn
  refine hp.filterMap _ ?_
  intro a b hab x hx y hy
  by_cases hca : (a.1.getLast? = some "Chart.yaml" && !hiddenOrVendor a.1) = true
  · by_cases hcb : (b.1.getLast? = some "Chart.yaml" && !hiddenOrVendor b.1) = true
    · rw [if_pos hca] at hx
      rw [if_pos hcb] at hy
      rcases Option.mem_some_iff.mp hx with rfl
      rcases Option.mem_some_iff.mp hy with rfl
      intro he
      have ha1 : a.1.getLast? = some "Chart.yaml" :=
        of_decide_eq_true (Bool.and_eq_true_iff.mp hca).1
      have hb1 : b.1.getLast? = some "Chart.yaml" :=
        of_decide_eq_true (Bool.and_eq_true_iff.mp hcb).1
      apply hab
      rw [getLast?_eq_some_decomp a.1 _ ha1, getLast?_eq_some_decomp b.1 _ hb1, he]
    · rw [if_neg hcb] at hy
      cases hy
  · rw [if_neg hca] at hx
    cases hx

theorem helmDetect_pairwise (r : Repo)
    (hn : (r.fs.files.map Prod.fst).Nodup) :
    (helmDetect r).Pairwise (fun p q => p.path ≠ q.path) := by
  rw [helmDetect]
  refine List.Pairwise.filterMap _ ?_ (chartDirs_nodup r.fs hn)
  intro d1 d2 hne p hp q hq
  have hp' : analyzeHelmChart r d1 = .ok p :=
    (except_toOption_eq_some _ _).mp (Option.mem_def.mp hp)
  have hq' : analyzeHelmChart r d2 = .ok q :=
    (except_toOption_eq_some _ _).mp (Option.mem_def.mp hq)
  rw [(analyzeHelm_ok_fields r d1 p hp').2, (analyzeHelm_ok_fields r d2 q hq').2]
  exact hne

theorem dirYamlFiles_mem_dropLast (fs : FS) (d : FPath) (p : FPath)
    (h : p ∈ fs.dirYamlFiles d) : p.dropLast = d := by
  rw [FS.dirYamlFiles] at h
  obtain ⟨q, _, hcond⟩ := List.mem_filterMap.mp h
  by_cases hc : (q.1.dropLast = d &&
      strEndsWith (q.1.getLast?.getD "") ".yaml") = true
  · rw [if_pos hc] at hcond
    rcases Option.some_inj.mp hcond with rfl
    exact of_decide_eq_true (Bool.and_eq_true_iff.mp hc).1
  · rw [if_neg hc] at hcond
    cases hcond

theorem dirYamlFiles_nodup (fs : FS) (d : FPath)
    (hn : (fs.files.map Prod.fst).Nodup) : (fs.dirYamlFiles d).Nodup := by
  rw [FS.dirYamlFiles]
  refine List.Pairwise.filterMap _ ?_ (List.pairwise_map.mp hn)
  intro a b hab x hx y hy
  by_cases hca : (a.1.dropLast = d &&
      strEndsWith (a.1.getLast?.getD "") ".yaml") = true
  · by_cases hcb : (b.1.dropLast = d &&
        strEndsWith (b.1.getLast?.getD "") ".yaml") = true
    · rw [if_pos hca] at hx
      rw [if_pos hcb] at hy
      rcases Option.mem_some_iff.mp hx with rfl
      rcases Option.mem_some_iff.mp hy with rfl
      exact hab
    · rw [if_neg hcb] at hy
      cases hy
  · rw [if_neg hca] at hx
    cases hx

theorem argocdPass1Files_nodup (r : Repo)
    (hn : (r.fs.files.map Prod.fst).Nodup) : (argocdPass1Files r).Nodup := by
  rw [argocdPass1Files]
  apply List.nodup_flatMap.mpr
  constructor
  · intro d _
    exact dirYamlFiles_nodup r.fs d hn
  · have hdirs : (argocdDirs.filter (fun d => r.fs.dirExists d)).Nodup :=
      List.Nodup.filter _ (by decide)
    refine List.Pairwise.imp_of_mem ?_ hdirs
    intro d1 d2 _ _ hne
    intro x hx1 hx2
    have e1 := dirYamlFiles_mem_dropLast r.fs d1 x hx1
    have e2 := dirYamlFiles_mem_dropLast r.fs d2 x hx2
    exact hne (e1 ▸ e2 ▸ rfl)

theorem argocdPass1_from_file (r : Repo) (q : FPath) (p : Pattern)
    (h : p ∈ (if isArgocdApp (parsedAt r q) then
        (analyzeArgocdApp r q).toOption else none)) :
    analyzeArgocdApp r q = .ok p := by
  by_cases hc : isArgocdApp (parsedAt r q) = true
  · rw [if_pos hc] at h
    exact (except_toOption_eq_some _ _).mp (Option.mem_def.mp h)
  · rw [if_neg hc] at h
    cases h

theorem argocdPass1_pairwise (r : Repo)
    (hn : (r.fs.files.map Prod.fst).Nodup) :
    (argocdPass1 r).Pairwise (fun p q => p.configs ≠ q.configs) := by
  rw [argocdPass1]
  refine List.Pairwise.filterMap _ ?_ (argocdPass1Files_nodup r hn)
  intro q1 q2 hne p hp p' hp'
  have h1 := argocdPass1_from_file r q1 p hp
  have h2 := argocdPass1_from_file r q2 p' hp'
  rw [(analyzeArgo_ok_fields r q1 p h1).2, (analyzeArgo_ok_fields r q2 p' h2).2]
  intro he
  exact hne (List.singleton_inj.mp he)

theorem argocdPass2_pairwise (r : Repo) :
    ∀ (ps : List FPath) (acc : List Pattern),
      (∀ p ∈ acc, ∃ q, analyzeArgocdApp r q = .ok p) →
      acc.Pairwise (fun p q => p.configs ≠ q.configs) →
      (argocdPass2 r acc ps).Pairwise (fun p q => p.configs ≠ q.configs) := by
  intro ps
  induction ps with
  | nil => intro acc _ h2; exact h2
  | cons q ps ih =>
    intro acc h1 h2
    rw [argocdPass2]
    by_cases hc : isArgocdApp (parsedAt r q) = true
    · rw [if_pos hc]
      cases ha : analyzeArgocdApp r q with
      | error e => exact ih acc h1 h2
      | ok pat =>
        show (argocdPass2 r (if acc.contains pat = true then acc
            else acc ++ [pat]) ps).Pairwise (fun p q => p.configs ≠ q.configs)
        by_cases hdup : acc.contains pat = true
        · rw [if_pos hdup]
          exact ih acc h1 h2
        · rw [if_neg hdup]
          have hnotmem : pat ∉ acc := by
            intro hmem
            exact hdup (List.elem_iff.mpr hmem)
          apply ih (acc ++ [pat])
          · intro p hp
            rcases List.mem_append.mp hp with hp | hp
            · exact h1 p hp
            · rcases List.mem_singleton.mp hp with rfl
              exact ⟨q, ha⟩
          · apply List.pairwise_append.mpr
            refine ⟨h2, by simp, ?_⟩
            intro a hmem b hb
            rcases List.mem_singleton.mp hb with rfl
            obtain ⟨qa, hqa⟩ := h1 a hmem
            rw [(analyzeArgo_ok_fields r qa a hqa).2,
                (analyzeArgo_ok_fields r q b ha).2]
            intro he
            rcases List.singleton_inj.mp he with rfl
            rw [hqa] at ha
            injection ha with ha'
            exact hnotmem (ha' ▸ hmem)
    · rw [if_neg hc]
      exact ih acc h1 h2

theorem argocdDetect_pairwise (r : Repo)
    (hn : (r.fs.files.map Prod.fst).Nodup) :
    (argocdDetect r).Pairwise (fun p q => p.configs ≠ q.configs) := by
  rw [argocdDetect]
  apply argocdPass2_pairwise r (argocdPass2Files r) (argocdPass1 r)
  · intro p hp
    obtain ⟨q, _, _, hq⟩ := argocdPass1_mem r p hp
    exact ⟨q, hq⟩
  · exact argocdPass1_pairwise r hn

/-- C3 amended: `(kind, sourcePath)` does NOT uniquely identify a
pattern (see the counterexample); what holds is: within one scan, Chart
patterns are uniquely identified by their sourcePath, GitOps patterns by
their defining config file, and patterns of different kinds never
coincide.  Stated as: the scan result is pairwise in the relation
"different paths when both are charts AND different configFiles when
both are GitOps applications". -/
theorem c3_scan_uniqueness_amended (r : Repo)
    (hn : (r.fs.files.map Prod.fst).Nodup) :
    (scanRepository r).Pairwise (fun p q =>
      (p.type = "helm" → q.type = "helm" → p.path ≠ q.path) ∧
      (p.type = "argocd" → q.type = "argocd" → p.configs ≠ q.configs)) := by
  rw [scanRepository]
  apply List.pairwise_append.mpr
  refine ⟨?_, ?_, ?_⟩
  · refine List.Pairwise.imp_of_mem ?_ (helmDetect_pairwise r hn)
    intro p q hp hq hne
    refine ⟨fun _ _ => hne, fun hty _ => ?_⟩
    obtain ⟨d, _, hok⟩ := (helmDetect_mem r p).mp hp
    rw [(analyzeHelm_ok_fields r d p hok).1] at hty
    exact absurd hty (by decide)
  · refine List.Pairwise.imp_of_mem ?_ (argocdDetect_pairwise r hn)
    intro p q hp hq hne
    refine ⟨fun hty _ => ?_, fun _ _ => hne⟩
    obtain ⟨w, hok⟩ := argocdDetect_mem r p hp
    rw [(analyzeArgo_ok_fields r w p hok).1] at hty
    exact absurd hty (by decide)
  · intro p hp q hq
    obtain ⟨w, hok⟩ := argocdDetect_mem r q hq
    refine ⟨fun _ hty => ?_, fun hty _ => ?_⟩
    · rw [(analyzeArgo_ok_fields r w q hok).1] at hty
      exact absurd hty (by decide)
    · obtain ⟨d, _, hokp⟩ := (helmDetect_mem r p).mp hp
      rw [(analyzeHelm_ok_fields r d p hokp).1] at hty
      exact absurd hty (by decide)

/-- C3 amended, instantiated on the two-application repository of the
counterexample: the two patterns with equal `(kind, sourcePath)` still
have distinct defining config files. -/
theorem c3_scan_uniqueness_amended_witness :
    (scanRepository twoAppsRepo).Pairwise (fun p q =>
      (p.type = "helm" → q.type = "helm" → p.path ≠ q.path) ∧
      (p.type = "argocd" → q.type = "argocd" → p.configs ≠ q.configs)) :=
  c3_scan_uniqueness_amended twoAppsRepo (by decide)

/-! ## C7 (amended) -/

/-- An on-disk template directory holding one helm chart named `n` with
a chart descriptor and a values file. -/
def c7TemplateDir (n : String) (f1 f2 : MFile) : FS :=
  ⟨[(["helm", n, "Chart.yaml"], f1), (["helm", n, "values.yaml"], f2)]⟩

/-- The target tree produced by applying that chart to an empty target:
the two rendered files under the chart's target path. -/
def c7Written (o : Oracle) (n tn : String) (ru : Option String)
    (t1 t2 : List JinjaNode) : FS :=
  ⟨[(["deployments", "helm", n, "Chart.yaml"],
      mkFile o (renderNodes (extractVariablesForRepo ⟨tn, ru, ⟨[]⟩⟩) t1)),
    (["deployments", "helm", n, "values.yaml"],
      mkFile o (renderNodes (extractVariablesForRepo ⟨tn, ru, ⟨[]⟩⟩) t2))]⟩

/-- C7 amended: for a template set whose helm chart directory contains a
`Chart.yaml` plus a values file, both with compilable bodies, applied to
an empty target whose rendered chart descriptor parses back as a YAML
dict: the first apply is `applied`; the second apply with `force=false`
is `skipped` (the written chart is detected by the target scan); the
second apply with `force=true` is `applied` again and rewrites every
file with byte-for-byte identical content, leaving the filesystem
exactly equal. -/
theorem c7_idempotence_amended (o : Oracle) (n tn : String)
    (ru : Option String) (f1 f2 : MFile) (t1 t2 : List JinjaNode)
    (m : List (String × Yaml))
    (hf1 : f1.jinja = .ok t1) (hf2 : f2.jinja = .ok t2)
    (hn1 : strStartsWith n "." = false)
    (hn2 : n ≠ "node_modules") (hn3 : n ≠ "vendor")
    (horacle : (o (renderNodes (extractVariablesForRepo ⟨tn, ru, ⟨[]⟩⟩) t1)).1 =
      some (.map m)) :
    applyPatterns o (c7TemplateDir n f1 f2) ⟨tn, ru, ⟨[]⟩⟩ false false =
      .ok (c7Written o n tn ru t1 t2,
        [⟨"helm/" ++ n, "applied",
          "Created Helm chart at " ++ pathStr ["deployments", "helm", n]⟩]) ∧
    applyPatterns o (c7TemplateDir n f1 f2)
        ⟨tn, ru, c7Written o n tn ru t1 t2⟩ false false =
      .ok (c7Written o n tn ru t1 t2,
        [⟨"helm/" ++ n, "skipped", "Helm chart already exists"⟩]) ∧
    applyPatterns o (c7TemplateDir n f1 f2)
        ⟨tn, ru, c7Written o n tn ru t1 t2⟩ false true =
      .ok (c7Written o n tn ru t1 t2,
        [⟨"helm/" ++ n, "applied",
          "Created Helm chart at " ++ pathStr ["deployments", "helm", n]⟩]) := by
  refine ⟨?_, ?_, ?_⟩
  · simp +decide [c7TemplateDir, c7Written, applyPatterns, applyTypeDir,
      applyTypeChildren, applyHelmChart, applyHelmChartFiles, scanRepository,
      helmDetect, chartDirs, argocdDetect, argocdPass1, argocdPass1Files,
      argocdPass2, argocdPass2Files, argocdDirs, FS.lookup, FS.dirExists,
      FS.childrenNames, FS.filesUnder, FS.dedupAux, FS.write, FS.writeList,
      FS.dirYamlFiles, pathIsUnder, hf1, hf2, Except.map, Option.toList]
  · simp +decide [c7TemplateDir, c7Written, applyPatterns, applyTypeDir,
      applyTypeChildren, applyHelmChart, applyHelmChartFiles, scanRepository,
      helmDetect, chartDirs, argocdDetect, argocdPass1, argocdPass1Files,
      argocdPass2, argocdPass2Files, argocdDirs, analyzeHelmChart, FS.lookup,
      FS.dirExists, FS.childrenNames, FS.filesUnder, FS.dedupAux, FS.write,
      FS.writeList, FS.dirYamlFiles, pathIsUnder, Except.map, Option.toList,
      Except.toOption, mkFile, horacle, orEmpty_map, hiddenOrVendor, hn1, hn2,
      hn3, matchesApplicationGlob, parsedAt, isArgocdApp]
  · simp +decide [c7TemplateDir, c7Written, applyPatterns, applyTypeDir,
      applyTypeChildren, applyHelmChart, applyHelmChartFiles, scanRepository,
      helmDetect, chartDirs, argocdDetect, argocdPass1, argocdPass1Files,
      argocdPass2, argocdPass2Files, argocdDirs, analyzeHelmChart, FS.lookup,
      FS.dirExists, FS.childrenNames, FS.filesUnder, FS.dedupAux, FS.write,
      FS.writeList, FS.dirYamlFiles, pathIsUnder, hf1, hf2, Except.map,
      Option.toList, Except.toOption, mkFile, horacle, orEmpty_map,
      hiddenOrVendor, hn1, hn2, hn3, matchesApplicationGlob, parsedAt,
      isArgocdApp, extractVariablesForRepo]

/-- The parse environment of the C7 witness: every written text parses
back as a small YAML dict and compiles as plain text. -/
def c7oracle : Oracle :=
  fun s => (some (.map [("name", .str "app")]), .ok [.atom (.text s)])

/-- C7 amended, instantiated on a concrete chart named app and target
named t: applied, then skipped, then applied-with-force leaving the
filesystem unchanged. -/
theorem c7_idempotence_amended_witness :
    applyPatterns c7oracle
        (c7TemplateDir "app" ⟨"apiVersion: v2", some (.map []), .ok [.atom (.text "apiVersion: v2")]⟩
          ⟨"x: 1", some (.map [("x", .num 1)]), .ok [.atom (.text "x: 1")]⟩)
        ⟨"t", none, c7Written c7oracle "app" "t" none
          [.atom (.text "apiVersion: v2")] [.atom (.text "x: 1")]⟩ false false =
      .ok (c7Written c7oracle "app" "t" none
            [.atom (.text "apiVersion: v2")] [.atom (.text "x: 1")],
        [⟨"helm/app", "skipped", "Helm chart already exists"⟩]) :=
  (c7_idempotence_amended c7oracle "app" "t" none
    ⟨"apiVersion: v2", some (.map []), .ok [.atom (.text "apiVersion: v2")]⟩
    ⟨"x: 1", some (.map [("x", .num 1)]), .ok [.atom (.text "x: 1")]⟩
    [.atom (.text "apiVersion: v2")] [.atom (.text "x: 1")]
    [("name", .str "app")] rfl rfl (by decide) (by decide) (by decide) rfl).2.1
